import Mathlib

/-
Shallow embedding of the inventory / invoice / production core of the
Account_systemV01 Django backend (src/backend/layers).

Modelling conventions:

* Quantities and money amounts (Django `DecimalField`) are modelled as `Int`.
  Every operation the modelled code performs on these fields is addition,
  subtraction, multiplication, `max`, or a comparison — all exact on Decimal
  and with the same algebra over any linearly ordered commutative ring.  The
  single division in the modelled code (`order.total_cost /
  order.actual_quantity` in `complete_assembly_order`) never flows into
  persisted state; only its ZeroDivisionError branch is observable, and it is
  modelled as an explicit zero test.
* The database is a `DB` value: the `stocks`, `stock_movements` and
  `contacts` tables.  A service call is a function `… → DB → Except Err …`.
  Every modelled service method runs inside `@transaction.atomic`, so a
  raised exception rolls the whole transaction back: a `.error` result means
  the database is left exactly as it was (the caller keeps the original
  `DB`).  `commit` makes this commit-or-rollback reading explicit.
* `Stock.save()` (warehouse_models.py:237-240) always runs `full_clean`,
  which raises unless `0 ≤ reserved_quantity` (MinValueValidator) and
  `reserved_quantity ≤ quantity` (`Stock.clean`).  `save_stock_row` models
  this.  The `min_quantity`/`max_quantity` threshold fields and their checks
  are omitted: no modelled operation ever writes them, so their validators
  are inert (a freshly created row has both at the default 0).
* Django's `Model.objects.create(**kwargs)` raises `TypeError` when a kwarg
  is not a field of the model.  `StockMovement` creation sites therefore
  carry the literal kwarg-name list from the source and are checked against
  the model's field names; `production_service.complete_assembly_order`
  passes `stock=...`, which `StockMovement` does not have.
* `movement_type` is a `CharField` with `TextChoices`; `objects.create` does
  not validate choices, so it is modelled as a plain `String` with the
  model's choice constants.
* Master-data existence checks (warehouse / product / contact `NotFound`
  lookups at the top of the services) are elided: the claims quantify over
  entities that exist, and those checks touch no state.
* Timestamp / user-stamp fields (`approved_date`, `completed_at`, `notes`,
  `created_by`, …) carry no logic touched by the claims and are omitted from
  the records, though their kwarg names still appear in the literal kwarg
  lists taken from the source.
-/

namespace AccountSystem

abbrev Qty := Int

/-- Error taxonomy of core/exceptions.py plus the two builtin Python errors
the modelled code can raise (`TypeError` from an unexpected ORM kwarg,
`ZeroDivisionError` from Decimal division by zero).  Django's own
`ValidationError` (raised by `full_clean`) is folded into `validationErr`:
both are ValidationError-class failures and both abort the transaction. -/
inductive Err where
  | validationErr (msg : String)
  | notFoundErr (msg : String)
  | businessLogicErr (msg : String)
  | insufficientStockErr (msg : String)
  | typeErr (msg : String)
  | zeroDivisionErr (msg : String)
deriving Repr, DecidableEq

instance {ε α : Type} [DecidableEq ε] [DecidableEq α] : DecidableEq (Except ε α) := fun a b =>
  match a, b with
  | .ok x, .ok y =>
    if h : x = y then .isTrue (by rw [h]) else .isFalse (fun hh => by cases hh; exact h rfl)
  | .error x, .error y =>
    if h : x = y then .isTrue (by rw [h]) else .isFalse (fun hh => by cases hh; exact h rfl)
  | .ok _, .error _ => .isFalse (fun hh => by cases hh)
  | .error _, .ok _ => .isFalse (fun hh => by cases hh)

/-- Commit-or-rollback semantics of `@transaction.atomic`: a successful call
commits the new state, a raised exception leaves the original state. -/
def commit {σ : Type} (orig : σ) (r : Except Err σ) : σ × Option Err :=
  match r with
  | .ok s => (s, none)
  | .error e => (orig, some e)

/-- Stock row (warehouse_models.Stock): per (warehouse, product) pair. -/
structure Stock where
  warehouse_id : Nat
  product_id : Nat
  quantity : Qty
  reserved_quantity : Qty
deriving Repr, DecidableEq

/-- Stock.available_quantity property (warehouse_models.py:242-245). -/
def Stock.available_quantity (s : Stock) : Qty :=
  max 0 (s.quantity - s.reserved_quantity)

/-- Checks run by `Stock.full_clean` on every save: the
`MinValueValidator(0)` on `reserved_quantity` and the `clean` check
`reserved_quantity ≤ quantity` (warehouse_models.py:159-165, 226-231). -/
def Stock.clean_ok (s : Stock) : Bool :=
  decide (0 ≤ s.reserved_quantity) && decide (s.reserved_quantity ≤ s.quantity)

/-- Stock.save(): full_clean then persist (warehouse_models.py:237-240). -/
def save_stock_row (s : Stock) : Except Err Stock :=
  if s.clean_ok then .ok s else .error (.validationErr "stock full_clean failed")

/-- StockMovement.MovementType choice constants (warehouse_models.py:297-303).
Stored values of the CharField. -/
def MovementType.IN : String := "in"

def MovementType.OUT : String := "out"

def MovementType.TRANSFER : String := "transfer"

def MovementType.ADJUSTMENT : String := "adjustment"

def MovementType.PRODUCTION : String := "production"

def MovementType.RETURN : String := "return"

/-- StockMovement row (warehouse_models.StockMovement).  Fields with model
defaults keep those defaults here (`quantity_before`/`quantity_after`
default 0, reference fields default blank/null). -/
structure StockMovement where
  warehouse_id : Nat
  product_id : Nat
  movement_type : String
  quantity : Qty
  quantity_before : Qty := 0
  quantity_after : Qty := 0
  from_warehouse_id : Option Nat := none
  to_warehouse_id : Option Nat := none
  reference_type : String := ""
  reference_id : Option Nat := none
  reference_number : String := ""
deriving Repr, DecidableEq

/-- Contact row, reduced to the running balance the core mutates
(contact_models.Contact.current_balance). -/
structure Contact where
  id : Nat
  current_balance : Qty
deriving Repr, DecidableEq

/-- The database state the claims are about: stocks, stock_movements and
contacts tables. -/
structure DB where
  stocks : List Stock
  movements : List StockMovement
  contacts : List Contact
deriving Repr, DecidableEq

def stock_key_matches (w p : Nat) (s : Stock) : Bool :=
  s.warehouse_id == w && s.product_id == p

/-- StockRepository.get_stock: first row for (warehouse, product)
(warehouse_repository.py:70-75). -/
def DB.get_stock (db : DB) (w p : Nat) : Option Stock :=
  db.stocks.find? (stock_key_matches w p)

/-- ORM save of an existing row: every row with the saved row's key is
replaced by the saved value. -/
def DB.put_stock (db : DB) (s : Stock) : DB :=
  { db with stocks :=
      db.stocks.map (fun t => if stock_key_matches s.warehouse_id s.product_id t then s else t) }

/-- Stock.objects.create: inserts a fresh row. -/
def DB.create_stock (db : DB) (s : Stock) : DB :=
  { db with stocks := db.stocks ++ [s] }

/-- StockMovement.objects.create after kwarg validation: appends to the
append-only movement log. -/
def DB.add_movement (db : DB) (m : StockMovement) : DB :=
  { db with movements := db.movements ++ [m] }

/-- Contact.update_balance (contact_models.py:233-243):
current_balance += amount, then save. -/
def DB.update_balance (db : DB) (cid : Nat) (amount : Qty) : DB :=
  { db with contacts :=
      db.contacts.map (fun c =>
        if c.id == cid then { c with current_balance := c.current_balance + amount } else c) }

/-- Field/kwarg names accepted by `StockMovement.objects.create` (the model's
fields, id, and the `_id` forms of its foreign keys;
warehouse_models.py:291-408). -/
def stock_movement_field_kwargs : List String :=
  ["id", "warehouse", "warehouse_id", "product", "product_id", "movement_type",
   "quantity", "quantity_before", "quantity_after", "from_warehouse",
   "from_warehouse_id", "to_warehouse", "to_warehouse_id", "reference_type",
   "reference_id", "reference_number", "notes", "created_by", "created_by_id",
   "created_at", "updated_at"]

/-- Field/kwarg names accepted when creating a `Stock` row
(warehouse_models.py:132-221). -/
def stock_field_kwargs : List String :=
  ["id", "warehouse", "warehouse_id", "product", "product_id", "quantity",
   "reserved_quantity", "min_quantity", "max_quantity", "location",
   "created_at", "updated_at"]

/-- StockMovement.objects.create(**kwargs): Django raises TypeError when a
kwarg is not a model field, otherwise the row is inserted. -/
def create_movement (kwargs : List String) (db : DB) (m : StockMovement) : Except Err DB :=
  if kwargs.all (fun k => stock_movement_field_kwargs.contains k) then
    .ok (db.add_movement m)
  else
    .error (.typeErr "StockMovement got an unexpected keyword argument")

/-- Stock.reserve (warehouse_models.py:278-283): raises unless
quantity ≤ available, then adds to reserved_quantity and saves. -/
def Stock.reserve (s : Stock) (q : Qty) : Except Err Stock :=
  if q > s.available_quantity then
    .error (.validationErr "Cannot reserve more than available")
  else
    save_stock_row { s with reserved_quantity := s.reserved_quantity + q }

/-- Stock.release (warehouse_models.py:285-288): clamps reserved_quantity at
zero and saves. -/
def Stock.release (s : Stock) (q : Qty) : Except Err Stock :=
  save_stock_row { s with reserved_quantity := max 0 (s.reserved_quantity - q) }

/-- Stock get-or-create used by the repositories and services: returns the
existing row, or inserts a fresh row with all quantities zero
(warehouse_repository.py:128-132, warehouse_service.py:194-201). -/
def get_or_create_stock (db : DB) (w p : Nat) : Stock × DB :=
  match db.get_stock w p with
  | some s => (s, db)
  | none => (⟨w, p, 0, 0⟩, db.create_stock ⟨w, p, 0, 0⟩)

/-- StockRepository.update_stock (warehouse_repository.py:123-137):
get_or_create, quantity += change, save. -/
def update_stock (db : DB) (w p : Nat) (quantity_change : Qty) : Except Err (Stock × DB) :=
  let sd := get_or_create_stock db w p
  match save_stock_row { sd.1 with quantity := sd.1.quantity + quantity_change } with
  | .error e => .error e
  | .ok t => .ok (t, sd.2.put_stock t)

/-- Kwarg names of the movement created by WarehouseService.adjust_stock
(warehouse_service.py:225-234). -/
def adjust_movement_kwargs : List String :=
  ["warehouse_id", "product_id", "movement_type", "quantity", "quantity_before",
   "quantity_after", "notes", "created_by_id"]

/-- WarehouseService.adjust_stock (warehouse_service.py:162-248): lock row,
get-or-create, apply signed delta, reject a negative result, save, emit one
ADJUSTMENT movement with before/after. -/
def adjust_stock (db : DB) (warehouse_id product_id : Nat) (quantity : Qty) : Except Err DB :=
  let sd := get_or_create_stock db warehouse_id product_id
  let quantity_before := sd.1.quantity
  let new_quantity := sd.1.quantity + quantity
  if new_quantity < 0 then
    .error (.validationErr "Insufficient stock for adjustment")
  else
    match save_stock_row { sd.1 with quantity := new_quantity } with
    | .error e => .error e
    | .ok t =>
      create_movement adjust_movement_kwargs (sd.2.put_stock t)
        { warehouse_id := warehouse_id, product_id := product_id,
          movement_type := MovementType.ADJUSTMENT, quantity := quantity,
          quantity_before := quantity_before, quantity_after := new_quantity }

/-- Kwarg names of the two movements created by
WarehouseService.transfer_stock (warehouse_service.py:336-361). -/
def transfer_movement_kwargs : List String :=
  ["warehouse_id", "product_id", "movement_type", "quantity", "quantity_before",
   "quantity_after", "from_warehouse_id", "to_warehouse_id", "notes", "created_by_id"]

/-- WarehouseService.transfer_stock (warehouse_service.py:250-378): reject
non-positive quantity and same-warehouse transfers, require available
quantity at the source, move quantity between the two rows, emit two
TRANSFER movements carrying the from/to warehouse references. -/
def transfer_stock (db : DB) (from_warehouse_id to_warehouse_id product_id : Nat)
    (quantity : Qty) : Except Err DB :=
  if quantity ≤ 0 then
    .error (.validationErr "Transfer quantity must be positive")
  else if from_warehouse_id == to_warehouse_id then
    .error (.validationErr "Cannot transfer to the same warehouse")
  else
    match db.get_stock from_warehouse_id product_id with
    | none => .error (.insufficientStockErr "Insufficient stock in source warehouse")
    | some from_stock =>
      if from_stock.available_quantity < quantity then
        .error (.insufficientStockErr "Insufficient stock in source warehouse")
      else
        let td := get_or_create_stock db to_warehouse_id product_id
        let from_qty_before := from_stock.quantity
        let to_qty_before := td.1.quantity
        match save_stock_row { from_stock with quantity := from_stock.quantity - quantity } with
        | .error e => .error e
        | .ok f2 =>
          match save_stock_row { td.1 with quantity := td.1.quantity + quantity } with
          | .error e => .error e
          | .ok t2 =>
            match create_movement transfer_movement_kwargs ((td.2.put_stock f2).put_stock t2)
                { warehouse_id := from_warehouse_id, product_id := product_id,
                  movement_type := MovementType.TRANSFER, quantity := -quantity,
                  quantity_before := from_qty_before, quantity_after := f2.quantity,
                  from_warehouse_id := some from_warehouse_id,
                  to_warehouse_id := some to_warehouse_id } with
            | .error e => .error e
            | .ok db3 =>
              create_movement transfer_movement_kwargs db3
                { warehouse_id := to_warehouse_id, product_id := product_id,
                  movement_type := MovementType.TRANSFER, quantity := quantity,
                  quantity_before := to_qty_before, quantity_after := t2.quantity,
                  from_warehouse_id := some from_warehouse_id,
                  to_warehouse_id := some to_warehouse_id }

inductive InvoiceType where
  | SALES | PURCHASE
deriving Repr, DecidableEq

inductive InvoiceStatus where
  | DRAFT | PENDING | APPROVED | PARTIALLY_PAID | PAID | CANCELLED
deriving Repr, DecidableEq

def InvoiceStatus.str : InvoiceStatus → String
  | .DRAFT => "DRAFT"
  | .PENDING => "PENDING"
  | .APPROVED => "APPROVED"
  | .PARTIALLY_PAID => "PARTIALLY_PAID"
  | .PAID => "PAID"
  | .CANCELLED => "CANCELLED"

/-- Invoice line item, reduced to the fields the inventory engine reads
(invoice_models.InvoiceItem). -/
structure InvoiceItem where
  product_id : Nat
  quantity : Qty
deriving Repr, DecidableEq

/-- Invoice, reduced to the fields approve/cancel read or write
(invoice_models.Invoice). -/
structure Invoice where
  id : Nat
  invoice_number : String
  invoice_type : InvoiceType
  status : InvoiceStatus
  inventory_updated : Bool
  warehouse_id : Nat
  contact_id : Nat
  total_amount : Qty
  items : List InvoiceItem
deriving Repr, DecidableEq

/-- Per-line stock availability pre-check for SALES invoices
(invoice_service.py:218-230): raises InsufficientStockError at the first
line whose quantity exceeds the available quantity (a missing stock row
counts as 0 available). -/
def check_sales_stock (db : DB) (warehouse_id : Nat) : List InvoiceItem → Except Err Unit
  | [] => .ok ()
  | item :: rest =>
    match db.get_stock warehouse_id item.product_id with
    | none => .error (.insufficientStockErr "Insufficient stock for product")
    | some stock =>
      if stock.available_quantity < item.quantity then
        .error (.insufficientStockErr "Insufficient stock for product")
      else
        check_sales_stock db warehouse_id rest

/-- Kwarg names of the movement created by InvoiceService._update_inventory
(invoice_service.py:527-539). -/
def invoice_movement_kwargs : List String :=
  ["warehouse_id", "product_id", "movement_type", "quantity", "quantity_before",
   "quantity_after", "reference_type", "reference_id", "reference_number",
   "notes", "created_by_id"]

/-- InvoiceService._update_inventory (invoice_service.py:507-539): per line,
SALES decrements (OUT movement), PURCHASE increments (IN movement), via
StockRepository.update_stock, logging one movement per line. -/
def update_inventory_items (inv : Invoice) : List InvoiceItem → DB → Except Err DB
  | [], db => .ok db
  | item :: rest, db =>
    let quantity_change : Qty :=
      match inv.invoice_type with
      | .SALES => -item.quantity
      | .PURCHASE => item.quantity
    let movement_type : String :=
      match inv.invoice_type with
      | .SALES => MovementType.OUT
      | .PURCHASE => MovementType.IN
    match update_stock db inv.warehouse_id item.product_id quantity_change with
    | .error e => .error e
    | .ok sd =>
      match create_movement invoice_movement_kwargs sd.2
          { warehouse_id := inv.warehouse_id, product_id := item.product_id,
            movement_type := movement_type, quantity := quantity_change,
            quantity_before := sd.1.quantity - quantity_change,
            quantity_after := sd.1.quantity,
            reference_type := "invoice", reference_id := some inv.id,
            reference_number := inv.invoice_number } with
      | .error e => .error e
      | .ok db2 => update_inventory_items inv rest db2

/-- InvoiceService.approve_invoice (invoice_service.py:190-262): only from
DRAFT/PENDING, reject when inventory_updated, pre-check SALES stock, apply
inventory, set status=APPROVED and inventory_updated=true, then adjust the
contact balance (+total for SALES, −total for PURCHASE). -/
def approve_invoice (inv : Invoice) (db : DB) : Except Err (Invoice × DB) :=
  if ¬ (inv.status = .DRAFT ∨ inv.status = .PENDING) then
    .error (.businessLogicErr ("Cannot approve invoice with status " ++ inv.status.str))
  else if inv.inventory_updated then
    .error (.businessLogicErr "Invoice inventory already updated")
  else
    match
      (match inv.invoice_type with
       | .SALES => check_sales_stock db inv.warehouse_id inv.items
       | .PURCHASE => .ok ()) with
    | .error e => .error e
    | .ok _ =>
      match update_inventory_items inv inv.items db with
      | .error e => .error e
      | .ok db1 =>
        let inv2 := { inv with status := InvoiceStatus.APPROVED, inventory_updated := true }
        let delta : Qty :=
          match inv.invoice_type with
          | .SALES => inv.total_amount
          | .PURCHASE => -inv.total_amount
        .ok (inv2, db1.update_balance inv.contact_id delta)

/-- Kwarg names of the reversal movement created by
InvoiceService._reverse_inventory (invoice_service.py:559-569); note that
quantity_before/quantity_after are not passed and keep the model default 0. -/
def reversal_movement_kwargs : List String :=
  ["warehouse_id", "product_id", "movement_type", "quantity", "reference_type",
   "reference_id", "reference_number", "notes", "created_by_id"]

/-- InvoiceService._reverse_inventory (invoice_service.py:541-569): per line,
SALES adds stock back, PURCHASE removes it, logging one ADJUSTMENT movement
per line tagged invoice_reversal. -/
def reverse_inventory_items (inv : Invoice) : List InvoiceItem → DB → Except Err DB
  | [], db => .ok db
  | item :: rest, db =>
    let quantity_change : Qty :=
      match inv.invoice_type with
      | .SALES => item.quantity
      | .PURCHASE => -item.quantity
    match update_stock db inv.warehouse_id item.product_id quantity_change with
    | .error e => .error e
    | .ok sd =>
      match create_movement reversal_movement_kwargs sd.2
          { warehouse_id := inv.warehouse_id, product_id := item.product_id,
            movement_type := MovementType.ADJUSTMENT, quantity := quantity_change,
            reference_type := "invoice_reversal", reference_id := some inv.id,
            reference_number := inv.invoice_number } with
      | .error e => .error e
      | .ok db2 => reverse_inventory_items inv rest db2

/-- InvoiceService.cancel_invoice (invoice_service.py:264-306): reject PAID,
reverse inventory only when inventory_updated, always reverse the contact
balance (−total for SALES, +total for PURCHASE), set status=CANCELLED.  The
code never writes inventory_updated here: the flag keeps its value. -/
def cancel_invoice (inv : Invoice) (db : DB) : Except Err (Invoice × DB) :=
  if inv.status = .PAID then
    .error (.businessLogicErr "Cannot cancel a paid invoice")
  else
    match
      (if inv.inventory_updated then reverse_inventory_items inv inv.items db else .ok db) with
    | .error e => .error e
    | .ok db1 =>
      let delta : Qty :=
        match inv.invoice_type with
        | .SALES => -inv.total_amount
        | .PURCHASE => inv.total_amount
      .ok ({ inv with status := InvoiceStatus.CANCELLED }, db1.update_balance inv.contact_id delta)

inductive OrderType where
  | assembly | disassembly
deriving Repr, DecidableEq

inductive OrderStatus where
  | draft | confirmed | in_progress | completed | cancelled
deriving Repr, DecidableEq

/-- Production order item (production_models.ProductionOrderItem), reduced
to the fields confirm/complete/cancel read or write. -/
structure ProductionOrderItem where
  id : Nat
  product_id : Nat
  planned_quantity : Qty
  actual_quantity : Qty
  reserved : Bool
  is_deleted : Bool
deriving Repr, DecidableEq

/-- Production order (production_models.ProductionOrder), reduced to the
fields confirm/complete/cancel read or write. -/
structure ProductionOrder where
  id : Nat
  order_number : String
  order_type : OrderType
  status : OrderStatus
  product_id : Nat
  planned_quantity : Qty
  actual_quantity : Qty
  warehouse_id : Nat
  material_cost : Qty
  labor_cost : Qty
  overhead_cost : Qty
  items : List ProductionOrderItem
deriving Repr, DecidableEq

/-- ProductionOrder.total_cost property (production_models.py:413-416). -/
def ProductionOrder.total_cost (o : ProductionOrder) : Qty :=
  o.material_cost + o.labor_cost + o.overhead_cost

/-- Reservation loop of ProductionService.confirm_assembly_order
(production_service.py:204-221): per non-deleted item, require an existing
stock row with available_quantity ≥ planned_quantity (raising the service's
ValidationError otherwise), then add planned_quantity to reserved_quantity
and save. -/
def reserve_order_items (warehouse_id : Nat) : List ProductionOrderItem → DB → Except Err DB
  | [], db => .ok db
  | item :: rest, db =>
    match db.get_stock warehouse_id item.product_id with
    | none => .error (.validationErr "Insufficient stock for component")
    | some stock =>
      if stock.available_quantity < item.planned_quantity then
        .error (.validationErr "Insufficient stock for component")
      else
        let upd := { stock with reserved_quantity := stock.reserved_quantity + item.planned_quantity }
        match save_stock_row upd with
        | .error e => .error e
        | .ok s2 => reserve_order_items warehouse_id rest (db.put_stock s2)

/-- ProductionService.confirm_assembly_order (production_service.py:192-227):
only draft assembly orders; reserve every non-deleted item's planned
quantity, mark the items reserved, set status=confirmed. -/
def confirm_assembly_order (order : ProductionOrder) (db : DB) :
    Except Err (ProductionOrder × DB) :=
  if order.status ≠ .draft then
    .error (.validationErr "Only draft orders can be confirmed")
  else if order.order_type ≠ .assembly then
    .error (.validationErr "Not an assembly order")
  else
    match reserve_order_items order.warehouse_id
        (order.items.filter (fun i => !i.is_deleted)) db with
    | .error e => .error e
    | .ok db1 =>
      let items2 := order.items.map (fun i => if i.is_deleted then i else { i with reserved := true })
      .ok ({ order with status := OrderStatus.confirmed, items := items2 }, db1)

/-- Release loop of ProductionService.cancel_production_order
(production_service.py:481-492): per reserved item, if a stock row exists,
subtract planned_quantity from reserved_quantity and save; items are marked
unreserved. -/
def release_reserved_items (warehouse_id : Nat) : List ProductionOrderItem → DB → Except Err DB
  | [], db => .ok db
  | item :: rest, db =>
    match db.get_stock warehouse_id item.product_id with
    | none => release_reserved_items warehouse_id rest db
    | some stock =>
      let upd := { stock with reserved_quantity := stock.reserved_quantity - item.planned_quantity }
      match save_stock_row upd with
      | .error e => .error e
      | .ok s2 => release_reserved_items warehouse_id rest (db.put_stock s2)

/-- ProductionService.cancel_production_order (production_service.py:472-497):
reject completed/cancelled orders, release every reserved item's
reservation, set status=cancelled.  The code filters items by
reserved=True only (not by is_deleted). -/
def cancel_production_order (order : ProductionOrder) (db : DB) :
    Except Err (ProductionOrder × DB) :=
  if order.status = .completed ∨ order.status = .cancelled then
    .error (.validationErr "Cannot cancel completed or cancelled order")
  else
    match release_reserved_items order.warehouse_id
        (order.items.filter (fun i => i.reserved)) db with
    | .error e => .error e
    | .ok db1 =>
      let items2 := order.items.map (fun i => if i.reserved then { i with reserved := false } else i)
      .ok ({ order with status := OrderStatus.cancelled, items := items2 }, db1)

/-- Actual component consumption passed to complete_assembly_order
(production_controller / production_service.py:260-262). -/
structure ActualComponent where
  item_id : Nat
  actual_quantity : Qty
deriving Repr, DecidableEq

/-- Literal kwarg names of the consumption movement create in
ProductionService.complete_assembly_order (production_service.py:281-289).
The first name, stock, is not a StockMovement field. -/
def production_consume_kwargs : List String :=
  ["stock", "movement_type", "quantity", "reference_type", "reference_id",
   "notes", "created_by"]

/-- Literal kwarg names of the output movement create in
ProductionService.complete_assembly_order (production_service.py:307-315). -/
def production_output_kwargs : List String :=
  ["stock", "movement_type", "quantity", "reference_type", "reference_id",
   "notes", "created_by"]

/-- Literal kwarg names of the defaults dict passed to
Stock.objects.get_or_create in complete_assembly_order
(production_service.py:292-300).  unit_cost is not a Stock field. -/
def stock_defaults_kwargs : List String :=
  ["quantity", "reserved_quantity", "unit_cost"]

/-- Component-consumption loop of ProductionService.complete_assembly_order
(production_service.py:260-289): look the item up, release its reservation
and deduct the actual quantity in one save, then create the consumption
movement — whose kwargs include stock, not a StockMovement field, so Django
raises TypeError there.  The movement value in the (dead) valid branch
carries the data the call passes. -/
def consume_components (order : ProductionOrder) :
    List ActualComponent → DB → Except Err DB
  | [], db => .ok db
  | comp :: rest, db =>
    match order.items.find? (fun i => i.id == comp.item_id) with
    | none => .error (.notFoundErr "ProductionOrderItem matching query does not exist")
    | some item =>
      match db.get_stock order.warehouse_id item.product_id with
      | none => .error (.notFoundErr "Stock matching query does not exist")
      | some stock =>
        let upd := { stock with
                     reserved_quantity := stock.reserved_quantity - item.planned_quantity,
                     quantity := stock.quantity - comp.actual_quantity }
        match save_stock_row upd with
        | .error e => .error e
        | .ok s2 =>
          match create_movement production_consume_kwargs (db.put_stock s2)
              { warehouse_id := order.warehouse_id, product_id := item.product_id,
                movement_type := "production_consume", quantity := -comp.actual_quantity,
                reference_type := "production_order", reference_id := some order.id } with
          | .error e => .error e
          | .ok db2 => consume_components order rest db2

/-- ProductionService.complete_assembly_order (production_service.py:243-321):
only in_progress assembly orders; set actual_quantity, consume components,
then build the get_or_create defaults dict (its unit_cost entry divides
total_cost by actual_quantity, raising ZeroDivisionError when that is zero,
and unit_cost is not a Stock field, raising TypeError when the row must be
created), add the output quantity to the finished stock, create the output
movement (TypeError again: kwarg stock), and set status=completed.  The
code never recomputes material_cost. -/
def complete_assembly_order (order : ProductionOrder) (actual_quantity : Qty)
    (actual_components : List ActualComponent) (db : DB) :
    Except Err (ProductionOrder × DB) :=
  if order.status ≠ .in_progress then
    .error (.validationErr "Order must be in progress")
  else if order.order_type ≠ .assembly then
    .error (.validationErr "Not an assembly order")
  else
    let order1 := { order with actual_quantity := actual_quantity }
    match consume_components order1 actual_components db with
    | .error e => .error e
    | .ok db1 =>
      if order1.actual_quantity = 0 then
        .error (.zeroDivisionErr "division by zero")
      else
        match
          (match db1.get_stock order1.warehouse_id order1.product_id with
           | some s => .ok (s, db1)
           | none =>
             if stock_defaults_kwargs.all (fun k => stock_field_kwargs.contains k) then
               .ok ((⟨order1.warehouse_id, order1.product_id, 0, 0⟩ : Stock),
                 db1.create_stock ⟨order1.warehouse_id, order1.product_id, 0, 0⟩)
             else
               .error (.typeErr "Stock got an unexpected keyword argument")
           : Except Err (Stock × DB)) with
        | .error e => .error e
        | .ok fd =>
          match save_stock_row { fd.1 with quantity := fd.1.quantity + order1.actual_quantity } with
          | .error e => .error e
          | .ok f2 =>
            match create_movement production_output_kwargs (fd.2.put_stock f2)
                { warehouse_id := order1.warehouse_id, product_id := order1.product_id,
                  movement_type := "production_output", quantity := order1.actual_quantity,
                  reference_type := "production_order", reference_id := some order1.id } with
            | .error e => .error e
            | .ok db2 => .ok ({ order1 with status := OrderStatus.completed }, db2)

/-- BOM component (production_models.BOMComponent), reduced to the cost
fields and the soft-delete flag. -/
structure BOMComponent where
  component_id : Nat
  quantity : Qty
  unit_cost : Qty
  is_deleted : Bool
deriving Repr, DecidableEq

/-- BOMComponent.total_cost property (production_models.py:228-231):
quantity × unit_cost. -/
def BOMComponent.total_cost (c : BOMComponent) : Qty :=
  c.quantity * c.unit_cost

/-- Bill of materials (production_models.BillOfMaterials), reduced to the
cost fields and its component list. -/
structure BillOfMaterials where
  product_id : Nat
  estimated_material_cost : Qty
  labor_cost : Qty
  overhead_cost : Qty
  components : List BOMComponent
deriving Repr, DecidableEq

/-- BillOfMaterials.total_cost_per_unit property
(production_models.py:131-134). -/
def BillOfMaterials.total_cost_per_unit (b : BillOfMaterials) : Qty :=
  b.estimated_material_cost + b.labor_cost + b.overhead_cost

/-- Validated component payload handed to the repository
(production_repository.create_bom / update_bom). -/
structure ComponentData where
  component_id : Nat
  quantity : Qty
  unit_cost : Qty
deriving Repr, DecidableEq

/-- BOMComponent.objects.create(bom=bom, **comp_data): a fresh, non-deleted
component row. -/
def ComponentData.toComponent (c : ComponentData) : BOMComponent :=
  ⟨c.component_id, c.quantity, c.unit_cost, false⟩

def material_cost_sum (components : List BOMComponent) : Qty :=
  (components.map BOMComponent.total_cost).sum

/-- ProductionRepository.create_bom (production_repository.py:78-95): create
the BOM and its components, then set estimated_material_cost to the sum of
component total costs (over .all components — all freshly created, none
deleted). -/
def create_bom (product_id : Nat) (labor_cost overhead_cost : Qty)
    (components_data : List ComponentData) : BillOfMaterials :=
  let comps := components_data.map ComponentData.toComponent
  { product_id := product_id, labor_cost := labor_cost,
    overhead_cost := overhead_cost, components := comps,
    estimated_material_cost := material_cost_sum comps }

/-- ProductionRepository.update_bom (production_repository.py:97-122): when
components are provided, soft-delete the existing components, create the
new ones, and recompute estimated_material_cost over the non-deleted
components. -/
def update_bom (bom : BillOfMaterials) (components_data : Option (List ComponentData)) :
    BillOfMaterials :=
  match components_data with
  | none => bom
  | some cs =>
    let deleted := bom.components.map (fun c => { c with is_deleted := true })
    let comps := deleted ++ cs.map ComponentData.toComponent
    let cost := material_cost_sum (comps.filter (fun c => !c.is_deleted))
    { bom with components := comps, estimated_material_cost := cost }

/-- Stock invariant of the spec: 0 ≤ reserved_quantity ≤ quantity. -/
def stock_ok (s : Stock) : Prop :=
  0 ≤ s.reserved_quantity ∧ s.reserved_quantity ≤ s.quantity

instance (s : Stock) : Decidable (stock_ok s) := by
  unfold stock_ok; infer_instance

/-- Every stock row of the database satisfies the invariant. -/
def DB.stocks_ok (db : DB) : Prop :=
  ∀ s ∈ db.stocks, stock_ok s

instance (db : DB) : Decidable (db.stocks_ok) := by
  unfold DB.stocks_ok; infer_instance

/-- Observed quantity of the (warehouse, product) stock row (0 when the row
does not exist). -/
def DB.quantity_at (db : DB) (w p : Nat) : Qty :=
  match db.get_stock w p with
  | some s => s.quantity
  | none => 0

/-- Observed reserved quantity of the (warehouse, product) stock row. -/
def DB.reserved_at (db : DB) (w p : Nat) : Qty :=
  match db.get_stock w p with
  | some s => s.reserved_quantity
  | none => 0

/-- Observed available quantity of the (warehouse, product) stock row. -/
def DB.available_at (db : DB) (w p : Nat) : Qty :=
  match db.get_stock w p with
  | some s => s.available_quantity
  | none => 0

/-- Observed balance of a contact (0 when the contact does not exist). -/
def DB.balance_at (db : DB) (cid : Nat) : Qty :=
  match db.contacts.find? (fun c => c.id == cid) with
  | some c => c.current_balance
  | none => 0

def items_delta (items : List InvoiceItem) (p : Nat) : Qty :=
  (items.map (fun i => if i.product_id = p then i.quantity else 0)).sum

/-- Sign of the stock change applied per line at approval: SALES decrements,
PURCHASE increments. -/
def InvoiceType.stock_sign : InvoiceType → Qty
  | .SALES => -1
  | .PURCHASE => 1

def planned_delta (items : List ProductionOrderItem) (p : Nat) : Qty :=
  (items.map (fun i => if i.product_id = p then i.planned_quantity else 0)).sum

def error_is_insufficient {α : Type} : Except Err α → Bool
  | .error (.insufficientStockErr _) => true
  | _ => false

def c7order : ProductionOrder :=
  ⟨1, "ASM-1", .assembly, .in_progress, 9, 2, 0, 1, 0, 0, 0, [⟨1, 4, 3, 0, true, false⟩]⟩

def c7db : DB := ⟨[⟨1, 4, 10, 3⟩, ⟨1, 9, 0, 0⟩], [], []⟩

def c10inv : Invoice := ⟨9, "SAL-9", .SALES, .DRAFT, false, 1, 3, 55, [⟨1, 5⟩]⟩

def c10db : DB := ⟨[⟨1, 1, 10, 0⟩], [], [⟨3, 40⟩]⟩

def c8cdb : DB := ⟨[⟨1, 1, 10, 8⟩], [], []⟩

def c8wdb : DB := ⟨[⟨1, 1, 100, 0⟩], [], []⟩

def c2winv : Invoice := ⟨1, "SAL-1", .SALES, .DRAFT, false, 1, 3, 55, [⟨1, 5⟩]⟩

def c2wdb : DB := ⟨[⟨1, 1, 3, 0⟩], [], [⟨3, 0⟩]⟩

def c2cinv : Invoice := ⟨8, "SAL-8", .SALES, .PENDING, true, 1, 3, 55, [⟨1, 5⟩]⟩

def c3inv : Invoice := ⟨2, "SAL-2", .SALES, .DRAFT, false, 1, 3, 55, [⟨1, 5⟩]⟩

def c3db : DB := ⟨[⟨1, 1, 10, 0⟩], [], [⟨3, 40⟩]⟩

def c3inv1 : Invoice := ⟨2, "SAL-2", .SALES, .APPROVED, true, 1, 3, 55, [⟨1, 5⟩]⟩

def c3db1 : DB :=
  ⟨[⟨1, 1, 5, 0⟩],
   [⟨1, 1, MovementType.OUT, -5, 10, 5, none, none, "invoice", some 2, "SAL-2"⟩],
   [⟨3, 95⟩]⟩

def c3inv2 : Invoice := ⟨2, "SAL-2", .SALES, .CANCELLED, true, 1, 3, 55, [⟨1, 5⟩]⟩

def c3db2 : DB :=
  ⟨[⟨1, 1, 10, 0⟩],
   [⟨1, 1, MovementType.OUT, -5, 10, 5, none, none, "invoice", some 2, "SAL-2"⟩,
    ⟨1, 1, MovementType.ADJUSTMENT, 5, 0, 0, none, none, "invoice_reversal", some 2, "SAL-2"⟩],
   [⟨3, 40⟩]⟩

def c3pinv : Invoice := ⟨3, "SAL-3", .SALES, .APPROVED, true, 1, 3, 55, [⟨1, 5⟩]⟩

def c3pdb : DB := ⟨[⟨1, 1, 5, 0⟩], [], [⟨3, 95⟩]⟩

def c3pinv2 : Invoice := ⟨3, "SAL-3", .SALES, .CANCELLED, true, 1, 3, 55, [⟨1, 5⟩]⟩

def c3pdb2 : DB :=
  ⟨[⟨1, 1, 10, 0⟩],
   [⟨1, 1, MovementType.ADJUSTMENT, 5, 0, 0, none, none, "invoice_reversal", some 3, "SAL-3"⟩],
   [⟨3, 40⟩]⟩

def c3paid : Invoice := ⟨4, "SAL-4", .SALES, .PAID, true, 1, 3, 55, [⟨1, 5⟩]⟩

def c4db : DB := ⟨[⟨1, 1, 50, 0⟩, ⟨2, 1, 5, 0⟩], [], []⟩

def c4res : DB :=
  ⟨[⟨1, 1, 30, 0⟩, ⟨2, 1, 25, 0⟩],
   [⟨1, 1, MovementType.TRANSFER, -20, 50, 30, some 1, some 2, "", none, ""⟩,
    ⟨2, 1, MovementType.TRANSFER, 20, 5, 25, some 1, some 2, "", none, ""⟩],
   []⟩

def c5inv : Invoice := ⟨7, "SAL-7", .SALES, .DRAFT, false, 1, 3, 55, [⟨1, 5⟩]⟩

def c5db : DB := ⟨[⟨1, 1, 10, 0⟩], [], [⟨3, 0⟩]⟩

def c5inv1 : Invoice := ⟨7, "SAL-7", .SALES, .APPROVED, true, 1, 3, 55, [⟨1, 5⟩]⟩

def c5db1 : DB :=
  ⟨[⟨1, 1, 5, 0⟩],
   [⟨1, 1, MovementType.OUT, -5, 10, 5, none, none, "invoice", some 7, "SAL-7"⟩],
   [⟨3, 55⟩]⟩

def c6order : ProductionOrder :=
  ⟨1, "ASM-1", .assembly, .draft, 9, 2, 0, 1, 0, 0, 0, [⟨1, 4, 3, 0, false, false⟩]⟩

def c6db : DB := ⟨[⟨1, 4, 10, 0⟩], [], []⟩

def c6o1 : ProductionOrder :=
  ⟨1, "ASM-1", .assembly, .confirmed, 9, 2, 0, 1, 0, 0, 0, [⟨1, 4, 3, 0, true, false⟩]⟩

def c6db1 : DB := ⟨[⟨1, 4, 10, 3⟩], [], []⟩

def c6o2 : ProductionOrder :=
  ⟨1, "ASM-1", .assembly, .cancelled, 9, 2, 0, 1, 0, 0, 0, [⟨1, 4, 3, 0, false, false⟩]⟩

def c6db2 : DB := ⟨[⟨1, 4, 10, 0⟩], [], []⟩

def c6sdb : DB := ⟨[⟨1, 4, 2, 0⟩], [], []⟩

def c1db : DB := ⟨[⟨1, 1, 100, 10⟩], [], []⟩

def c1adjdb : DB :=
  ⟨[⟨1, 1, 70, 10⟩],
   [⟨1, 1, MovementType.ADJUSTMENT, -30, 100, 70, none, none, "", none, ""⟩],
   []⟩

theorem stock_key_matches_iff {w p : Nat} {s : Stock} :
    stock_key_matches w p s = true ↔ s.warehouse_id = w ∧ s.product_id = p := by
  simp [stock_key_matches]

theorem stock_key_matches_self (s : Stock) :
    stock_key_matches s.warehouse_id s.product_id s = true := by
  simp [stock_key_matches]

theorem get_stock_some {db : DB} {w p : Nat} {s : Stock} (h : db.get_stock w p = some s) :
    s.warehouse_id = w ∧ s.product_id = p ∧ s ∈ db.stocks := by
  simp only [DB.get_stock] at h
  have h1 := List.find?_some h
  have h2 := List.mem_of_find?_eq_some h
  exact ⟨(stock_key_matches_iff.mp h1).1, (stock_key_matches_iff.mp h1).2, h2⟩

theorem stock_ok_iff_clean {s : Stock} : stock_ok s ↔ s.clean_ok = true := by
  simp [stock_ok, Stock.clean_ok]

theorem save_stock_row_eq_ok {s t : Stock} :
    save_stock_row s = .ok t ↔ t = s ∧ s.clean_ok = true := by
  constructor
  · intro h
    unfold save_stock_row at h
    split at h
    · cases h; exact ⟨rfl, by assumption⟩
    · cases h
  · rintro ⟨rfl, hc⟩
    unfold save_stock_row
    rw [if_pos hc]

theorem commit_error {σ : Type} (orig : σ) (e : Err) :
    commit orig (.error e) = (orig, some e) := rfl

theorem commit_ok {σ : Type} (orig s : σ) :
    commit orig (.ok s) = (s, none) := rfl

theorem save_stock_row_if_ok {s : Stock} (h : s.clean_ok = true) :
    save_stock_row s = .ok s := by
  unfold save_stock_row
  rw [if_pos h]

theorem find?_map_put {w p : Nat} {s : Stock} (hs : stock_key_matches w p s = true) :
    ∀ l : List Stock, (l.find? (stock_key_matches w p)).isSome = true →
      (l.map (fun t => if stock_key_matches w p t then s else t)).find?
          (stock_key_matches w p) = some s := by
  intro l
  induction l with
  | nil => intro h; simp at h
  | cons a l ih =>
    intro h
    cases hp : stock_key_matches w p a with
    | true => simp [List.find?, hp, hs]
    | false =>
      simp only [List.find?, hp] at h
      simp [List.find?, hp, ih h]

theorem get_stock_put_self {db : DB} {s : Stock}
    (h : (db.get_stock s.warehouse_id s.product_id).isSome = true) :
    (db.put_stock s).get_stock s.warehouse_id s.product_id = some s := by
  simp only [DB.get_stock, DB.put_stock] at h ⊢
  exact find?_map_put (stock_key_matches_self s) db.stocks h

theorem get_stock_put_other {db : DB} {s : Stock} {w p : Nat}
    (h : ¬ (w = s.warehouse_id ∧ p = s.product_id)) :
    (db.put_stock s).get_stock w p = db.get_stock w p := by
  simp only [DB.get_stock, DB.put_stock]
  have hsp : stock_key_matches w p s = false := by
    rw [Bool.eq_false_iff]
    intro ht
    exact h ⟨(stock_key_matches_iff.mp ht).1.symm, (stock_key_matches_iff.mp ht).2.symm⟩
  induction db.stocks with
  | nil => rfl
  | cons a l ih =>
    by_cases hp : stock_key_matches s.warehouse_id s.product_id a = true
    · have hap : stock_key_matches w p a = false := by
        rcases stock_key_matches_iff.mp hp with ⟨h1, h2⟩
        rw [Bool.eq_false_iff]
        intro ht
        exact h ⟨(stock_key_matches_iff.mp ht).1.symm.trans h1,
          (stock_key_matches_iff.mp ht).2.symm.trans h2⟩
      simp [List.find?, hp, hap, hsp, ih]
    · simp only [Bool.not_eq_true] at hp
      cases hw : stock_key_matches w p a with
      | true => simp [List.find?, hp, hw]
      | false => simp [List.find?, hp, hw, ih]

theorem put_stock_of_none {db : DB} {s : Stock}
    (h : db.get_stock s.warehouse_id s.product_id = none) :
    db.put_stock s = db := by
  simp only [DB.get_stock, List.find?_eq_none] at h
  have : db.stocks.map (fun t =>
      if stock_key_matches s.warehouse_id s.product_id t then s else t) = db.stocks := by
    rw [List.map_congr_left, List.map_id]
    intro a ha
    simp [h a ha]
  simp only [DB.put_stock, this]

theorem mem_put_stock {db : DB} {s t : Stock} (h : t ∈ (db.put_stock s).stocks) :
    t = s ∨ t ∈ db.stocks := by
  simp only [DB.put_stock, List.mem_map] at h
  obtain ⟨a, ha, hat⟩ := h
  by_cases hp : stock_key_matches s.warehouse_id s.product_id a = true
  · rw [if_pos hp] at hat; exact Or.inl hat.symm
  · rw [if_neg hp] at hat; exact Or.inr (hat ▸ ha)

theorem get_stock_create {db : DB} {s : Stock} {w p : Nat} :
    (db.create_stock s).get_stock w p =
      match db.get_stock w p with
      | some t => some t
      | none => if stock_key_matches w p s then some s else none := by
  simp only [DB.get_stock, DB.create_stock]
  induction db.stocks with
  | nil =>
    cases hsm : stock_key_matches w p s with
    | true => simp [List.find?, hsm]
    | false => simp [List.find?, hsm]
  | cons a l ih =>
    cases hw : stock_key_matches w p a with
    | true => simp [List.find?, hw]
    | false => simp only [List.cons_append, List.find?, hw]; exact ih

theorem stocks_ok_put {db : DB} {s : Stock} (h : db.stocks_ok) (hs : stock_ok s) :
    (db.put_stock s).stocks_ok := by
  intro t ht
  rcases mem_put_stock ht with rfl | htm
  · exact hs
  · exact h t htm

theorem stocks_ok_create {db : DB} {s : Stock} (h : db.stocks_ok) (hs : stock_ok s) :
    (db.create_stock s).stocks_ok := by
  intro t ht
  simp only [DB.create_stock, List.mem_append, List.mem_singleton] at ht
  rcases ht with htm | rfl
  · exact h t htm
  · exact hs

theorem stocks_ok_get {db : DB} {w p : Nat} {s : Stock} (h : db.stocks_ok)
    (hg : db.get_stock w p = some s) : stock_ok s :=
  h s (get_stock_some hg).2.2

theorem get_stock_add_movement (db : DB) (m : StockMovement) (w p : Nat) :
    (db.add_movement m).get_stock w p = db.get_stock w p := rfl

theorem get_stock_update_balance (db : DB) (cid : Nat) (a : Qty) (w p : Nat) :
    (db.update_balance cid a).get_stock w p = db.get_stock w p := rfl

theorem stocks_add_movement (db : DB) (m : StockMovement) :
    (db.add_movement m).stocks = db.stocks := rfl

theorem stocks_update_balance (db : DB) (cid : Nat) (a : Qty) :
    (db.update_balance cid a).stocks = db.stocks := rfl

theorem movements_add_movement (db : DB) (m : StockMovement) :
    (db.add_movement m).movements = db.movements ++ [m] := rfl

theorem movements_put_stock (db : DB) (s : Stock) :
    (db.put_stock s).movements = db.movements := rfl

theorem movements_create_stock (db : DB) (s : Stock) :
    (db.create_stock s).movements = db.movements := rfl

theorem movements_update_balance (db : DB) (cid : Nat) (a : Qty) :
    (db.update_balance cid a).movements = db.movements := rfl

theorem contacts_add_movement (db : DB) (m : StockMovement) :
    (db.add_movement m).contacts = db.contacts := rfl

theorem contacts_put_stock (db : DB) (s : Stock) :
    (db.put_stock s).contacts = db.contacts := rfl

theorem contacts_create_stock (db : DB) (s : Stock) :
    (db.create_stock s).contacts = db.contacts := rfl

theorem stocks_ok_add_movement {db : DB} {m : StockMovement} (h : db.stocks_ok) :
    (db.add_movement m).stocks_ok := h

theorem stocks_ok_update_balance {db : DB} {cid : Nat} {a : Qty} (h : db.stocks_ok) :
    (db.update_balance cid a).stocks_ok := h

theorem quantity_at_put {db : DB} {t s : Stock}
    (hget : db.get_stock t.warehouse_id t.product_id = some s) :
    ∀ w p, (db.put_stock t).quantity_at w p =
      if w = t.warehouse_id ∧ p = t.product_id then t.quantity else db.quantity_at w p := by
  intro w p
  by_cases hk : w = t.warehouse_id ∧ p = t.product_id
  · obtain ⟨rfl, rfl⟩ := hk
    rw [if_pos ⟨rfl, rfl⟩]
    simp [DB.quantity_at, get_stock_put_self (by rw [hget]; rfl)]
  · rw [if_neg hk]
    simp [DB.quantity_at, get_stock_put_other hk]

theorem reserved_at_put {db : DB} {t s : Stock}
    (hget : db.get_stock t.warehouse_id t.product_id = some s) :
    ∀ w p, (db.put_stock t).reserved_at w p =
      if w = t.warehouse_id ∧ p = t.product_id then t.reserved_quantity
      else db.reserved_at w p := by
  intro w p
  by_cases hk : w = t.warehouse_id ∧ p = t.product_id
  · obtain ⟨rfl, rfl⟩ := hk
    rw [if_pos ⟨rfl, rfl⟩]
    simp [DB.reserved_at, get_stock_put_self (by rw [hget]; rfl)]
  · rw [if_neg hk]
    simp [DB.reserved_at, get_stock_put_other hk]

theorem isSome_put {db : DB} {t s : Stock}
    (hget : db.get_stock t.warehouse_id t.product_id = some s) :
    ∀ w p, ((db.put_stock t).get_stock w p).isSome = (db.get_stock w p).isSome := by
  intro w p
  by_cases hk : w = t.warehouse_id ∧ p = t.product_id
  · obtain ⟨rfl, rfl⟩ := hk
    rw [get_stock_put_self (by rw [hget]; rfl), hget]
    rfl
  · rw [get_stock_put_other hk]

theorem update_stock_spec {db : DB} {w p : Nat} {c : Qty} {t : Stock} {db' : DB}
    (h : update_stock db w p c = .ok (t, db')) :
    t.warehouse_id = w ∧ t.product_id = p ∧
    t.quantity = db.quantity_at w p + c ∧
    t.reserved_quantity = db.reserved_at w p ∧
    stock_ok t ∧
    db'.movements = db.movements ∧
    db'.contacts = db.contacts ∧
    (∀ w2 p2, db'.quantity_at w2 p2 =
       db.quantity_at w2 p2 + (if w2 = w ∧ p2 = p then c else 0)) ∧
    (∀ w2 p2, db'.reserved_at w2 p2 = db.reserved_at w2 p2) ∧
    (∀ w2 p2, ((db'.get_stock w2 p2).isSome = true ↔
       ((db.get_stock w2 p2).isSome = true ∨ (w2 = w ∧ p2 = p)))) ∧
    (db.stocks_ok → db'.stocks_ok) := by
  unfold update_stock get_or_create_stock at h
  cases hg : db.get_stock w p with
  | some s =>
    rw [hg] at h
    simp only at h
    cases hs : save_stock_row { s with quantity := s.quantity + c } with
    | error e => rw [hs] at h; cases h
    | ok t0 =>
      rw [hs] at h
      cases h
      obtain ⟨rfl, hclean⟩ := save_stock_row_eq_ok.mp hs
      obtain ⟨hw, hp, hmem⟩ := get_stock_some hg
      have hqat : db.quantity_at w p = s.quantity := by simp [DB.quantity_at, hg]
      have hrat : db.reserved_at w p = s.reserved_quantity := by simp [DB.reserved_at, hg]
      have hget : db.get_stock
          (Stock.warehouse_id { s with quantity := s.quantity + c })
          (Stock.product_id { s with quantity := s.quantity + c }) = some s := by
        simpa [hw, hp] using hg
      refine ⟨hw, hp, by rw [hqat], by rw [hrat], stock_ok_iff_clean.mpr hclean, rfl, rfl,
        ?_, ?_, ?_, ?_⟩
      · intro w2 p2
        rw [quantity_at_put hget w2 p2]
        simp only [hw, hp]
        by_cases hk : w2 = w ∧ p2 = p
        · obtain ⟨rfl, rfl⟩ := hk
          rw [if_pos ⟨rfl, rfl⟩, if_pos ⟨rfl, rfl⟩, hqat]
        · rw [if_neg hk, if_neg hk, add_zero]
      · intro w2 p2
        rw [reserved_at_put hget w2 p2]
        simp only [hw, hp]
        by_cases hk : w2 = w ∧ p2 = p
        · obtain ⟨rfl, rfl⟩ := hk
          rw [if_pos ⟨rfl, rfl⟩, hrat]
        · rw [if_neg hk]
      · intro w2 p2
        rw [isSome_put hget w2 p2]
        constructor
        · exact fun hh => Or.inl hh
        · rintro (hh | ⟨rfl, rfl⟩)
          · exact hh
          · rw [hg]; rfl
      · intro hok
        exact stocks_ok_put hok (stock_ok_iff_clean.mpr hclean)
  | none =>
    rw [hg] at h
    simp only at h
    cases hs : save_stock_row { (⟨w, p, 0, 0⟩ : Stock) with quantity := 0 + c } with
    | error e => rw [hs] at h; cases h
    | ok t0 =>
      rw [hs] at h
      cases h
      obtain ⟨rfl, hclean⟩ := save_stock_row_eq_ok.mp hs
      have hqat : db.quantity_at w p = 0 := by simp [DB.quantity_at, hg]
      have hrat : db.reserved_at w p = 0 := by simp [DB.reserved_at, hg]
      have hcreate : (db.create_stock ⟨w, p, 0, 0⟩).get_stock w p = some ⟨w, p, 0, 0⟩ := by
        rw [get_stock_create, hg]
        simp [stock_key_matches]
      have hcreate_other : ∀ w2 p2, ¬ (w2 = w ∧ p2 = p) →
          (db.create_stock ⟨w, p, 0, 0⟩).get_stock w2 p2 = db.get_stock w2 p2 := by
        intro w2 p2 hk
        rw [get_stock_create]
        cases hg2 : db.get_stock w2 p2 with
        | some u => rfl
        | none =>
          have : stock_key_matches w2 p2 (⟨w, p, 0, 0⟩ : Stock) = false := by
            rw [Bool.eq_false_iff]
            intro ht
            obtain ⟨h1, h2⟩ := stock_key_matches_iff.mp ht
            exact hk ⟨h1.symm, h2.symm⟩
          simp [this]
      have hget : (db.create_stock ⟨w, p, 0, 0⟩).get_stock
          (Stock.warehouse_id { (⟨w, p, 0, 0⟩ : Stock) with quantity := 0 + c })
          (Stock.product_id { (⟨w, p, 0, 0⟩ : Stock) with quantity := 0 + c }) =
          some ⟨w, p, 0, 0⟩ := hcreate
      refine ⟨rfl, rfl, by rw [hqat], by rw [hrat], stock_ok_iff_clean.mpr hclean, rfl, rfl,
        ?_, ?_, ?_, ?_⟩
      · intro w2 p2
        rw [quantity_at_put hget w2 p2]
        by_cases hk : w2 = w ∧ p2 = p
        · obtain ⟨rfl, rfl⟩ := hk
          rw [if_pos ⟨rfl, rfl⟩, if_pos ⟨rfl, rfl⟩, hqat]
        · rw [if_neg hk, if_neg hk, add_zero]
          simp [DB.quantity_at, hcreate_other w2 p2 hk]
      · intro w2 p2
        rw [reserved_at_put hget w2 p2]
        by_cases hk : w2 = w ∧ p2 = p
        · obtain ⟨rfl, rfl⟩ := hk
          rw [if_pos ⟨rfl, rfl⟩, hrat]
        · rw [if_neg hk]
          simp [DB.reserved_at, hcreate_other w2 p2 hk]
      · intro w2 p2
        rw [isSome_put hget w2 p2]
        by_cases hk : w2 = w ∧ p2 = p
        · obtain ⟨rfl, rfl⟩ := hk
          rw [hcreate]
          simp
        · rw [hcreate_other w2 p2 hk]
          constructor
          · exact fun hh => Or.inl hh
          · rintro (hh | hkk)
            · exact hh
            · exact absurd hkk hk
      · intro hok
        exact stocks_ok_put (stocks_ok_create hok (by constructor <;> simp))
          (stock_ok_iff_clean.mpr hclean)

theorem find?_map_update_balance {cid : Nat} {a : Qty} :
    ∀ (l : List Contact) (c0 : Contact), l.find? (fun c => c.id == cid) = some c0 →
      (l.map (fun c =>
        if c.id == cid then { c with current_balance := c.current_balance + a } else c)).find?
          (fun c => c.id == cid) =
        some { c0 with current_balance := c0.current_balance + a } := by
  intro l
  induction l with
  | nil => intro c0 h; cases h
  | cons x l ih =>
    intro c0 h
    by_cases hx : (x.id == cid) = true
    · simp only [List.find?, hx] at h
      injection h with h
      subst h
      have hx2 : (({ x with current_balance := x.current_balance + a } : Contact).id == cid)
          = true := by simpa using hx
      simp [List.find?, if_pos hx, hx2]
    · have hx' : (x.id == cid) = false := by simpa using hx
      simp only [List.find?, hx'] at h
      simp only [List.map]
      rw [if_neg hx]
      simp only [List.find?, hx']
      exact ih c0 h

theorem balance_at_update_balance_self {db : DB} {cid : Nat} {c0 : Contact} {a : Qty}
    (h : db.contacts.find? (fun c => c.id == cid) = some c0) :
    (db.update_balance cid a).balance_at cid = c0.current_balance + a := by
  have hf := find?_map_update_balance (a := a) db.contacts c0 h
  simp only [DB.balance_at, DB.update_balance]
  rw [hf]

theorem update_balance_update_balance (db : DB) (cid : Nat) (a b : Qty) :
    (db.update_balance cid a).update_balance cid b = db.update_balance cid (a + b) := by
  simp only [DB.update_balance, List.map_map]
  congr 1
  apply List.map_congr_left
  intro c _
  by_cases hc : (c.id == cid) = true
  · simp [Function.comp, hc, add_assoc]
  · simp [Function.comp, hc]

theorem update_balance_zero (db : DB) (cid : Nat) :
    db.update_balance cid 0 = db := by
  have hmap : ∀ l : List Contact, (l.map (fun c =>
      if c.id == cid then { c with current_balance := c.current_balance + 0 } else c)) = l := by
    intro l
    induction l with
    | nil => rfl
    | cons x l ih =>
      simp only [List.map, ih]
      by_cases hc : (x.id == cid) = true
      · rw [if_pos hc, add_zero]
      · rw [if_neg hc]
  simp only [DB.update_balance, hmap]

theorem balance_at_put_stock (db : DB) (s : Stock) (cid : Nat) :
    (db.put_stock s).balance_at cid = db.balance_at cid := rfl

theorem balance_at_add_movement (db : DB) (m : StockMovement) (cid : Nat) :
    (db.add_movement m).balance_at cid = db.balance_at cid := rfl

theorem balance_at_create_stock (db : DB) (s : Stock) (cid : Nat) :
    (db.create_stock s).balance_at cid = db.balance_at cid := rfl

theorem items_delta_nil (p : Nat) : items_delta [] p = 0 := rfl

theorem items_delta_cons (i : InvoiceItem) (rest : List InvoiceItem) (p : Nat) :
    items_delta (i :: rest) p =
      (if i.product_id = p then i.quantity else 0) + items_delta rest p := by
  simp [items_delta]

theorem quantity_at_add_movement (db : DB) (m : StockMovement) (w p : Nat) :
    (db.add_movement m).quantity_at w p = db.quantity_at w p := rfl

theorem reserved_at_add_movement (db : DB) (m : StockMovement) (w p : Nat) :
    (db.add_movement m).reserved_at w p = db.reserved_at w p := rfl

theorem quantity_at_update_balance (db : DB) (cid : Nat) (a : Qty) (w p : Nat) :
    (db.update_balance cid a).quantity_at w p = db.quantity_at w p := rfl

theorem reserved_at_update_balance (db : DB) (cid : Nat) (a : Qty) (w p : Nat) :
    (db.update_balance cid a).reserved_at w p = db.reserved_at w p := rfl

theorem invoice_kwargs_ok :
    (invoice_movement_kwargs.all (fun k => stock_movement_field_kwargs.contains k)) = true := by
  decide

theorem reversal_kwargs_ok :
    (reversal_movement_kwargs.all (fun k => stock_movement_field_kwargs.contains k)) = true := by
  decide

theorem adjust_kwargs_ok :
    (adjust_movement_kwargs.all (fun k => stock_movement_field_kwargs.contains k)) = true := by
  decide

theorem transfer_kwargs_ok :
    (transfer_movement_kwargs.all (fun k => stock_movement_field_kwargs.contains k)) = true := by
  decide

theorem consume_kwargs_bad :
    (production_consume_kwargs.all (fun k => stock_movement_field_kwargs.contains k)) = false := by
  decide

theorem output_kwargs_bad :
    (production_output_kwargs.all (fun k => stock_movement_field_kwargs.contains k)) = false := by
  decide

theorem stock_defaults_kwargs_bad :
    (stock_defaults_kwargs.all (fun k => stock_field_kwargs.contains k)) = false := by
  decide

theorem create_movement_invoice (db : DB) (m : StockMovement) :
    create_movement invoice_movement_kwargs db m = .ok (db.add_movement m) := by
  unfold create_movement
  rw [if_pos invoice_kwargs_ok]

theorem create_movement_reversal (db : DB) (m : StockMovement) :
    create_movement reversal_movement_kwargs db m = .ok (db.add_movement m) := by
  unfold create_movement
  rw [if_pos reversal_kwargs_ok]

theorem create_movement_adjust (db : DB) (m : StockMovement) :
    create_movement adjust_movement_kwargs db m = .ok (db.add_movement m) := by
  unfold create_movement
  rw [if_pos adjust_kwargs_ok]

theorem create_movement_transfer (db : DB) (m : StockMovement) :
    create_movement transfer_movement_kwargs db m = .ok (db.add_movement m) := by
  unfold create_movement
  rw [if_pos transfer_kwargs_ok]

theorem update_stock_ok_of_nonneg {db : DB} {w p : Nat} {c : Qty} (hok : db.stocks_ok)
    (hc : 0 ≤ c) : ∃ t db', update_stock db w p c = .ok (t, db') := by
  unfold update_stock get_or_create_stock
  cases hg : db.get_stock w p with
  | some s =>
    have hs := stocks_ok_get hok hg
    have hcl : ({ s with quantity := s.quantity + c } : Stock).clean_ok = true := by
      rw [← stock_ok_iff_clean]
      exact ⟨hs.1, le_trans hs.2 (le_add_of_nonneg_right hc)⟩
    simp only
    unfold save_stock_row
    rw [if_pos hcl]
    exact ⟨_, _, rfl⟩
  | none =>
    have hcl : ({ (⟨w, p, 0, 0⟩ : Stock) with quantity := 0 + c } : Stock).clean_ok = true := by
      rw [← stock_ok_iff_clean]
      exact ⟨le_refl 0, by simpa using hc⟩
    simp only
    unfold save_stock_row
    rw [if_pos hcl]
    exact ⟨_, _, rfl⟩

theorem update_inventory_items_spec {inv : Invoice} :
    ∀ (items : List InvoiceItem) (db db' : DB),
    update_inventory_items inv items db = .ok db' →
    (∀ w p, db'.quantity_at w p = db.quantity_at w p +
       (if w = inv.warehouse_id then inv.invoice_type.stock_sign * items_delta items p else 0)) ∧
    (∀ w p, db'.reserved_at w p = db.reserved_at w p) ∧
    db'.contacts = db.contacts ∧
    (∃ ms, db'.movements = db.movements ++ ms) ∧
    (db.stocks_ok → db'.stocks_ok) := by
  intro items
  induction items with
  | nil =>
    intro db db' h
    cases h
    refine ⟨?_, fun w p => rfl, rfl, ⟨[], by simp⟩, id⟩
    intro w p
    simp [items_delta_nil]
  | cons item rest ih =>
    intro db db' h
    simp only [update_inventory_items] at h
    cases hu : update_stock db inv.warehouse_id item.product_id
        (match inv.invoice_type with
         | InvoiceType.SALES => -item.quantity
         | InvoiceType.PURCHASE => item.quantity) with
    | error e => rw [hu] at h; exact (Except.noConfusion h)
    | ok sd =>
      rw [hu] at h
      simp only at h
      rw [create_movement_invoice] at h
      simp only at h
      obtain ⟨hq, hr, hc, hm, hok⟩ := ih _ _ h
      obtain ⟨_, _, _, _, _, hmv, hct, huq, hur, _, huok⟩ := update_stock_spec hu
      have hsign : (match inv.invoice_type with
          | InvoiceType.SALES => -item.quantity
          | InvoiceType.PURCHASE => item.quantity) =
          inv.invoice_type.stock_sign * item.quantity := by
        cases inv.invoice_type <;> simp [InvoiceType.stock_sign]
      refine ⟨?_, ?_, ?_, ?_, ?_⟩
      · intro w p
        rw [hq w p, quantity_at_add_movement, huq w p, items_delta_cons, hsign]
        by_cases hw : w = inv.warehouse_id
        · subst hw
          by_cases hp : p = item.product_id
          · subst hp
            rw [if_pos ⟨rfl, rfl⟩, if_pos rfl, if_pos rfl, if_pos rfl]
            ring
          · rw [if_neg (by tauto), if_pos rfl, if_pos rfl,
              if_neg (fun hh => hp hh.symm)]
            ring
        · rw [if_neg (by tauto), if_neg hw, if_neg hw]
          ring
      · intro w p
        rw [hr w p, reserved_at_add_movement, hur w p]
      · rw [hc, contacts_add_movement, hct]
      · obtain ⟨ms, hms⟩ := hm
        rw [movements_add_movement, hmv, List.append_assoc] at hms
        exact ⟨_, hms⟩
      · intro hdb
        exact hok (stocks_ok_add_movement (huok hdb))

theorem reverse_inventory_items_spec {inv : Invoice} :
    ∀ (items : List InvoiceItem) (db db' : DB),
    reverse_inventory_items inv items db = .ok db' →
    (∀ w p, db'.quantity_at w p = db.quantity_at w p +
       (if w = inv.warehouse_id then -(inv.invoice_type.stock_sign) * items_delta items p
        else 0)) ∧
    (∀ w p, db'.reserved_at w p = db.reserved_at w p) ∧
    db'.contacts = db.contacts ∧
    (∃ ms, db'.movements = db.movements ++ ms ∧ ms.length = items.length ∧
       ∀ m ∈ ms, m.movement_type = MovementType.ADJUSTMENT ∧
         m.reference_type = "invoice_reversal") ∧
    (db.stocks_ok → db'.stocks_ok) := by
  intro items
  induction items with
  | nil =>
    intro db db' h
    cases h
    refine ⟨?_, fun w p => rfl, rfl, ⟨[], by simp⟩, id⟩
    intro w p
    simp [items_delta_nil]
  | cons item rest ih =>
    intro db db' h
    simp only [reverse_inventory_items] at h
    cases hu : update_stock db inv.warehouse_id item.product_id
        (match inv.invoice_type with
         | InvoiceType.SALES => item.quantity
         | InvoiceType.PURCHASE => -item.quantity) with
    | error e => rw [hu] at h; exact (Except.noConfusion h)
    | ok sd =>
      rw [hu] at h
      simp only at h
      rw [create_movement_reversal] at h
      simp only at h
      obtain ⟨hq, hr, hc, hm, hok⟩ := ih _ _ h
      obtain ⟨_, _, _, _, _, hmv, hct, huq, hur, _, huok⟩ := update_stock_spec hu
      have hsign : (match inv.invoice_type with
          | InvoiceType.SALES => item.quantity
          | InvoiceType.PURCHASE => -item.quantity) =
          -(inv.invoice_type.stock_sign) * item.quantity := by
        cases inv.invoice_type <;> simp [InvoiceType.stock_sign]
      refine ⟨?_, ?_, ?_, ?_, ?_⟩
      · intro w p
        rw [hq w p, quantity_at_add_movement, huq w p, items_delta_cons, hsign]
        by_cases hw : w = inv.warehouse_id
        · subst hw
          by_cases hp : p = item.product_id
          · subst hp
            rw [if_pos ⟨rfl, rfl⟩, if_pos rfl, if_pos rfl, if_pos rfl]
            ring
          · rw [if_neg (by tauto), if_pos rfl, if_pos rfl,
              if_neg (fun hh => hp hh.symm)]
            ring
        · rw [if_neg (by tauto), if_neg hw, if_neg hw]
          ring
      · intro w p
        rw [hr w p, reserved_at_add_movement, hur w p]
      · rw [hc, contacts_add_movement, hct]
      · obtain ⟨ms, hms, hlen, hprop⟩ := hm
        rw [movements_add_movement, hmv, List.append_assoc] at hms
        refine ⟨_, hms, ?_, ?_⟩
        · simp [hlen]
        · intro m hmem
          rcases List.mem_append.mp hmem with hm1 | hm2
          · rcases List.mem_singleton.mp hm1 with rfl
            exact ⟨rfl, rfl⟩
          · exact hprop m hm2
      · intro hdb
        exact hok (stocks_ok_add_movement (huok hdb))

theorem reverse_inventory_items_ok {inv : Invoice} (hty : inv.invoice_type = .SALES) :
    ∀ (items : List InvoiceItem) (db : DB), db.stocks_ok →
      (∀ item ∈ items, 0 ≤ item.quantity) →
      ∃ db', reverse_inventory_items inv items db = .ok db' := by
  intro items
  induction items with
  | nil => exact fun db _ _ => ⟨db, rfl⟩
  | cons item rest ih =>
    intro db hok hq
    have hchg : (match inv.invoice_type with
        | InvoiceType.SALES => item.quantity
        | InvoiceType.PURCHASE => -item.quantity) = item.quantity := by
      rw [hty]
    have hnn : (0 : Qty) ≤ item.quantity := hq item (List.mem_cons_self item rest)
    obtain ⟨t, dbA, hu⟩ := update_stock_ok_of_nonneg (c := item.quantity) hok hnn
    have hokA : dbA.stocks_ok := (update_stock_spec hu).2.2.2.2.2.2.2.2.2.2 hok
    obtain ⟨db', hrest⟩ := ih (dbA.add_movement _) (stocks_ok_add_movement hokA)
      (fun i hi => hq i (List.mem_cons_of_mem item hi))
    refine ⟨db', ?_⟩
    simp only [reverse_inventory_items, hchg]
    rw [hu]
    simp only
    rw [create_movement_reversal]
    simp only
    exact hrest

theorem check_sales_stock_error_of_short {db : DB} {W : Nat} :
    ∀ items : List InvoiceItem,
      (∃ item ∈ items, db.available_at W item.product_id < item.quantity) →
      ∃ m, check_sales_stock db W items = .error (.insufficientStockErr m) := by
  intro items
  induction items with
  | nil => rintro ⟨item, hmem, _⟩; cases hmem
  | cons i rest ih =>
    rintro ⟨item, hmem, hshort⟩
    simp only [check_sales_stock]
    cases hg : db.get_stock W i.product_id with
    | none => exact ⟨_, rfl⟩
    | some stock =>
      simp only
      by_cases hlt : stock.available_quantity < i.quantity
      · rw [if_pos hlt]
        exact ⟨_, rfl⟩
      · rw [if_neg hlt]
        apply ih
        rcases List.mem_cons.mp hmem with rfl | hmem2
        · exfalso
          have hav : db.available_at W item.product_id = stock.available_quantity := by
            simp [DB.available_at, hg]
          rw [hav] at hshort
          exact hlt hshort
        · exact ⟨item, hmem2, hshort⟩

theorem planned_delta_nil (p : Nat) : planned_delta [] p = 0 := rfl

theorem planned_delta_cons (i : ProductionOrderItem) (rest : List ProductionOrderItem)
    (p : Nat) :
    planned_delta (i :: rest) p =
      (if i.product_id = p then i.planned_quantity else 0) + planned_delta rest p := by
  simp [planned_delta]

theorem available_at_eq_of_get_eq {db db' : DB} {w p : Nat}
    (h : db'.get_stock w p = db.get_stock w p) :
    db'.available_at w p = db.available_at w p := by
  simp [DB.available_at, h]

theorem reserve_order_items_spec {W : Nat} :
    ∀ (items : List ProductionOrderItem) (db db' : DB),
    reserve_order_items W items db = .ok db' →
    (∀ w p, db'.reserved_at w p = db.reserved_at w p +
       (if w = W then planned_delta items p else 0)) ∧
    (∀ w p, db'.quantity_at w p = db.quantity_at w p) ∧
    db'.movements = db.movements ∧
    db'.contacts = db.contacts ∧
    (∀ w p, (db'.get_stock w p).isSome = (db.get_stock w p).isSome) ∧
    (db.stocks_ok → db'.stocks_ok) := by
  intro items
  induction items with
  | nil =>
    intro db db' h
    cases h
    refine ⟨?_, fun w p => rfl, rfl, rfl, fun w p => rfl, id⟩
    intro w p
    simp [planned_delta_nil]
  | cons item rest ih =>
    intro db db' h
    simp only [reserve_order_items] at h
    cases hg : db.get_stock W item.product_id with
    | none => rw [hg] at h; exact (Except.noConfusion h)
    | some stock =>
      rw [hg] at h
      simp only at h
      by_cases hlt : stock.available_quantity < item.planned_quantity
      · rw [if_pos hlt] at h; exact (Except.noConfusion h)
      · rw [if_neg hlt] at h
        cases hs : save_stock_row { stock with
            reserved_quantity := stock.reserved_quantity + item.planned_quantity } with
        | error e => rw [hs] at h; exact (Except.noConfusion h)
        | ok s2 =>
          rw [hs] at h
          simp only at h
          obtain ⟨rfl, hclean⟩ := save_stock_row_eq_ok.mp hs
          obtain ⟨hsw, hsp, _⟩ := get_stock_some hg
          have hget : db.get_stock
              (Stock.warehouse_id { stock with
                reserved_quantity := stock.reserved_quantity + item.planned_quantity })
              (Stock.product_id { stock with
                reserved_quantity := stock.reserved_quantity + item.planned_quantity }) =
              some stock := by simpa [hsw, hsp] using hg
          have hrat : db.reserved_at W item.product_id = stock.reserved_quantity := by
            simp [DB.reserved_at, hg]
          obtain ⟨hr, hq, hmv, hct, hpres, hok⟩ := ih _ _ h
          refine ⟨?_, ?_, hmv, hct, ?_, ?_⟩
          · intro w p
            rw [hr w p, reserved_at_put hget w p, planned_delta_cons]
            simp only [hsw, hsp]
            by_cases hw : w = W
            · subst hw
              by_cases hp : item.product_id = p
              · subst hp
                rw [if_pos ⟨rfl, rfl⟩, if_pos rfl, if_pos rfl, if_pos rfl, hrat]
                ring
              · rw [if_neg (fun hh => hp hh.2.symm), if_pos rfl, if_pos rfl, if_neg hp]
                ring
            · rw [if_neg (fun hh => hw hh.1), if_neg hw, if_neg hw]
          · intro w p
            rw [hq w p, quantity_at_put hget w p]
            simp only [hsw, hsp]
            by_cases hk : w = W ∧ p = item.product_id
            · obtain ⟨rfl, rfl⟩ := hk
              rw [if_pos ⟨rfl, rfl⟩]
              simp [DB.quantity_at, hg]
            · rw [if_neg hk]
          · intro w p
            rw [hpres w p, isSome_put hget w p]
          · intro hdb
            exact hok (stocks_ok_put hdb (stock_ok_iff_clean.mpr hclean))

theorem reserve_order_items_error_of_short {W : Nat} :
    ∀ (items : List ProductionOrderItem) (db : DB), db.stocks_ok →
      items.Pairwise (fun a b => a.product_id ≠ b.product_id) →
      (∃ item ∈ items, db.available_at W item.product_id < item.planned_quantity) →
      ∃ m, reserve_order_items W items db = .error (.validationErr m) := by
  intro items
  induction items with
  | nil => rintro db _ _ ⟨item, hmem, _⟩; cases hmem
  | cons i rest ih =>
    rintro db hok hpw ⟨item, hmem, hshort⟩
    simp only [reserve_order_items]
    cases hg : db.get_stock W i.product_id with
    | none => exact ⟨_, rfl⟩
    | some stock =>
      simp only
      by_cases hlt : stock.available_quantity < i.planned_quantity
      · rw [if_pos hlt]
        exact ⟨_, rfl⟩
      · rw [if_neg hlt]
        have hihead : item ≠ i ∨ item ∈ rest := by
          rcases List.mem_cons.mp hmem with rfl | hmem2
          · exfalso
            have hav : db.available_at W item.product_id = stock.available_quantity := by
              simp [DB.available_at, hg]
            rw [hav] at hshort
            exact hlt hshort
          · exact Or.inr hmem2
        have hmem2 : item ∈ rest := by
          rcases List.mem_cons.mp hmem with rfl | hmem2
          · exfalso
            have hav : db.available_at W item.product_id = stock.available_quantity := by
              simp [DB.available_at, hg]
            rw [hav] at hshort
            exact hlt hshort
          · exact hmem2
        cases hs : save_stock_row { stock with
            reserved_quantity := stock.reserved_quantity + i.planned_quantity } with
        | error e =>
          obtain ⟨rfl, _⟩ : e = Err.validationErr "stock full_clean failed" ∧ True := by
            unfold save_stock_row at hs
            split at hs
            · cases hs
            · injection hs with hs
              exact ⟨hs.symm, trivial⟩
          exact ⟨_, rfl⟩
        | ok s2 =>
          obtain ⟨rfl, hclean⟩ := save_stock_row_eq_ok.mp hs
          obtain ⟨hsw, hsp, _⟩ := get_stock_some hg
          have hget : db.get_stock
              (Stock.warehouse_id { stock with
                reserved_quantity := stock.reserved_quantity + i.planned_quantity })
              (Stock.product_id { stock with
                reserved_quantity := stock.reserved_quantity + i.planned_quantity }) =
              some stock := by simpa [hsw, hsp] using hg
          have hpw2 := (List.pairwise_cons.mp hpw).2
          have hne := (List.pairwise_cons.mp hpw).1 item hmem2
          have hav2 : (db.put_stock { stock with
              reserved_quantity := stock.reserved_quantity + i.planned_quantity }).available_at
              W item.product_id = db.available_at W item.product_id := by
            apply available_at_eq_of_get_eq
            apply get_stock_put_other
            simp only [hsw, hsp]
            rintro ⟨-, hpp⟩
            exact hne hpp.symm
          have hok2 : (db.put_stock { stock with
              reserved_quantity := stock.reserved_quantity + i.planned_quantity }).stocks_ok :=
            stocks_ok_put hok (stock_ok_iff_clean.mpr hclean)
          obtain ⟨m, hrec⟩ := ih _ hok2 hpw2 ⟨item, hmem2, by rw [hav2]; exact hshort⟩
          exact ⟨m, hrec⟩

theorem release_reserved_items_spec {W : Nat} :
    ∀ (items : List ProductionOrderItem) (db db' : DB),
    (∀ i ∈ items, (db.get_stock W i.product_id).isSome = true) →
    release_reserved_items W items db = .ok db' →
    (∀ w p, db'.reserved_at w p = db.reserved_at w p -
       (if w = W then planned_delta items p else 0)) ∧
    (∀ w p, db'.quantity_at w p = db.quantity_at w p) ∧
    db'.movements = db.movements ∧
    db'.contacts = db.contacts ∧
    (∀ w p, (db'.get_stock w p).isSome = (db.get_stock w p).isSome) ∧
    (db.stocks_ok → db'.stocks_ok) := by
  intro items
  induction items with
  | nil =>
    intro db db' _ h
    cases h
    refine ⟨?_, fun w p => rfl, rfl, rfl, fun w p => rfl, id⟩
    intro w p
    simp [planned_delta_nil]
  | cons item rest ih =>
    intro db db' hpres h
    simp only [release_reserved_items] at h
    cases hg : db.get_stock W item.product_id with
    | none =>
      exfalso
      have := hpres item (List.mem_cons_self item rest)
      rw [hg] at this
      cases this
    | some stock =>
      rw [hg] at h
      simp only at h
      cases hs : save_stock_row { stock with
          reserved_quantity := stock.reserved_quantity - item.planned_quantity } with
      | error e => rw [hs] at h; exact (Except.noConfusion h)
      | ok s2 =>
        rw [hs] at h
        simp only at h
        obtain ⟨rfl, hclean⟩ := save_stock_row_eq_ok.mp hs
        obtain ⟨hsw, hsp, _⟩ := get_stock_some hg
        have hget : db.get_stock
            (Stock.warehouse_id { stock with
              reserved_quantity := stock.reserved_quantity - item.planned_quantity })
            (Stock.product_id { stock with
              reserved_quantity := stock.reserved_quantity - item.planned_quantity }) =
            some stock := by simpa [hsw, hsp] using hg
        have hrat : db.reserved_at W item.product_id = stock.reserved_quantity := by
          simp [DB.reserved_at, hg]
        have hpres2 : ∀ i ∈ rest, ((db.put_stock { stock with
            reserved_quantity := stock.reserved_quantity - item.planned_quantity }).get_stock
              W i.product_id).isSome = true := by
          intro i hi
          rw [isSome_put hget]
          exact hpres i (List.mem_cons_of_mem item hi)
        obtain ⟨hr, hq, hmv, hct, hpres3, hok⟩ := ih _ _ hpres2 h
        refine ⟨?_, ?_, hmv, hct, ?_, ?_⟩
        · intro w p
          rw [hr w p, reserved_at_put hget w p, planned_delta_cons]
          simp only [hsw, hsp]
          by_cases hw : w = W
          · subst hw
            by_cases hp : item.product_id = p
            · subst hp
              rw [if_pos ⟨rfl, rfl⟩, if_pos rfl, if_pos rfl, if_pos rfl, hrat]
              ring
            · rw [if_neg (fun hh => hp hh.2.symm), if_pos rfl, if_pos rfl, if_neg hp]
              ring
          · rw [if_neg (fun hh => hw hh.1), if_neg hw, if_neg hw]
        · intro w p
          rw [hq w p, quantity_at_put hget w p]
          simp only [hsw, hsp]
          by_cases hk : w = W ∧ p = item.product_id
          · obtain ⟨rfl, rfl⟩ := hk
            rw [if_pos ⟨rfl, rfl⟩]
            simp [DB.quantity_at, hg]
          · rw [if_neg hk]
        · intro w p
          rw [hpres3 w p, isSome_put hget w p]
        · intro hdb
          exact hok (stocks_ok_put hdb (stock_ok_iff_clean.mpr hclean))

theorem release_reserved_items_ok {W : Nat} :
    ∀ (items : List ProductionOrderItem) (db : DB), db.stocks_ok →
      items.Pairwise (fun a b => a.product_id ≠ b.product_id) →
      (∀ i ∈ items, (db.get_stock W i.product_id).isSome = true) →
      (∀ i ∈ items, 0 ≤ i.planned_quantity ∧
        i.planned_quantity ≤ db.reserved_at W i.product_id) →
      ∃ db', release_reserved_items W items db = .ok db' := by
  intro items
  induction items with
  | nil => exact fun db _ _ _ _ => ⟨db, rfl⟩
  | cons item rest ih =>
    intro db hok hpw hpres hbound
    simp only [release_reserved_items]
    cases hg : db.get_stock W item.product_id with
    | none =>
      exfalso
      have := hpres item (List.mem_cons_self item rest)
      rw [hg] at this
      cases this
    | some stock =>
      simp only
      have hs0 := stocks_ok_get hok hg
      have hrat : db.reserved_at W item.product_id = stock.reserved_quantity := by
        simp [DB.reserved_at, hg]
      obtain ⟨hpl, hub⟩ := hbound item (List.mem_cons_self item rest)
      rw [hrat] at hub
      have hclean : ({ stock with
          reserved_quantity := stock.reserved_quantity - item.planned_quantity } : Stock).clean_ok
          = true := by
        rw [← stock_ok_iff_clean]
        constructor
        · simpa using hub
        · calc stock.reserved_quantity - item.planned_quantity
              ≤ stock.reserved_quantity := by simpa using hpl
            _ ≤ stock.quantity := hs0.2
      rw [save_stock_row_if_ok hclean]
      obtain ⟨hsw, hsp, _⟩ := get_stock_some hg
      have hget : db.get_stock
          (Stock.warehouse_id { stock with
            reserved_quantity := stock.reserved_quantity - item.planned_quantity })
          (Stock.product_id { stock with
            reserved_quantity := stock.reserved_quantity - item.planned_quantity }) =
          some stock := by simpa [hsw, hsp] using hg
      apply ih
      · exact stocks_ok_put hok (stock_ok_iff_clean.mpr hclean)
      · exact (List.pairwise_cons.mp hpw).2
      · intro i hi
        rw [isSome_put hget]
        exact hpres i (List.mem_cons_of_mem item hi)
      · intro i hi
        have hne := (List.pairwise_cons.mp hpw).1 i hi
        have : (db.put_stock { stock with
            reserved_quantity := stock.reserved_quantity - item.planned_quantity }).reserved_at
            W i.product_id = db.reserved_at W i.product_id := by
          rw [reserved_at_put hget]
          simp only [hsw, hsp]
          rw [if_neg]
          rintro ⟨-, hpp⟩
          exact hne hpp.symm
        rw [this]
        exact hbound i (List.mem_cons_of_mem item hi)

theorem adjust_stock_spec {db : DB} {w p : Nat} {q : Qty} {s : Stock}
    (hg : db.get_stock w p = some s) :
    ((¬ (0 ≤ s.reserved_quantity ∧ s.reserved_quantity ≤ s.quantity + q)) →
       ∃ m, adjust_stock db w p q = .error (.validationErr m)) ∧
    ((0 ≤ s.reserved_quantity ∧ s.reserved_quantity ≤ s.quantity + q) →
       adjust_stock db w p q =
         .ok ((db.put_stock { s with quantity := s.quantity + q }).add_movement
           { warehouse_id := w, product_id := p,
             movement_type := MovementType.ADJUSTMENT, quantity := q,
             quantity_before := s.quantity, quantity_after := s.quantity + q })) := by
  unfold adjust_stock get_or_create_stock
  rw [hg]
  simp only
  constructor
  · intro hbad
    by_cases hneg : s.quantity + q < 0
    · rw [if_pos hneg]
      exact ⟨_, rfl⟩
    · rw [if_neg hneg]
      have hclean : ({ s with quantity := s.quantity + q } : Stock).clean_ok = false := by
        rw [Bool.eq_false_iff]
        intro hc
        exact hbad (stock_ok_iff_clean.mpr hc)
      unfold save_stock_row
      rw [if_neg (by rw [hclean]; exact Bool.false_ne_true)]
      exact ⟨_, rfl⟩
  · intro hgood
    have hneg : ¬ (s.quantity + q < 0) := by
      have := le_trans hgood.1 hgood.2
      exact not_lt.mpr this
    rw [if_neg hneg]
    have hclean : ({ s with quantity := s.quantity + q } : Stock).clean_ok = true :=
      stock_ok_iff_clean.mp hgood
    rw [save_stock_row_if_ok hclean]
    simp only
    rw [create_movement_adjust]

theorem adjust_stock_stocks_ok {db : DB} {w p : Nat} {q : Qty} {db' : DB}
    (hok : db.stocks_ok) (h : adjust_stock db w p q = .ok db') : db'.stocks_ok := by
  unfold adjust_stock get_or_create_stock at h
  cases hg : db.get_stock w p with
  | some s =>
    rw [hg] at h
    simp only at h
    split at h
    · exact (Except.noConfusion h)
    · cases hs : save_stock_row { s with quantity := s.quantity + q } with
      | error e => rw [hs] at h; exact (Except.noConfusion h)
      | ok t =>
        rw [hs] at h
        simp only at h
        rw [create_movement_adjust] at h
        injection h with h
        subst h
        obtain ⟨rfl, hclean⟩ := save_stock_row_eq_ok.mp hs
        exact stocks_ok_add_movement (stocks_ok_put hok (stock_ok_iff_clean.mpr hclean))
  | none =>
    rw [hg] at h
    simp only at h
    split at h
    · exact (Except.noConfusion h)
    · cases hs : save_stock_row { (⟨w, p, 0, 0⟩ : Stock) with quantity := 0 + q } with
      | error e => rw [hs] at h; exact (Except.noConfusion h)
      | ok t =>
        rw [hs] at h
        simp only at h
        rw [create_movement_adjust] at h
        injection h with h
        subst h
        obtain ⟨rfl, hclean⟩ := save_stock_row_eq_ok.mp hs
        exact stocks_ok_add_movement (stocks_ok_put
          (stocks_ok_create hok (by constructor <;> simp))
          (stock_ok_iff_clean.mpr hclean))

theorem transfer_stock_validation {db : DB} {f t p : Nat} {q : Qty}
    (h : q ≤ 0 ∨ f = t) :
    ∃ m, transfer_stock db f t p q = .error (.validationErr m) := by
  unfold transfer_stock
  by_cases hq : q ≤ 0
  · rw [if_pos hq]
    exact ⟨_, rfl⟩
  · rw [if_neg hq]
    have hft : f = t := h.resolve_left hq
    rw [if_pos (by simp [hft])]
    exact ⟨_, rfl⟩

theorem transfer_stock_insufficient {db : DB} {f t p : Nat} {q : Qty}
    (h1 : 0 < q) (h2 : f ≠ t) (h3 : db.available_at f p < q) :
    ∃ m, transfer_stock db f t p q = .error (.insufficientStockErr m) := by
  unfold transfer_stock
  rw [if_neg (not_le.mpr h1), if_neg (by simp [h2])]
  cases hg : db.get_stock f p with
  | none => exact ⟨_, rfl⟩
  | some fs =>
    simp only
    have hav : db.available_at f p = fs.available_quantity := by
      simp [DB.available_at, hg]
    rw [if_pos (by rw [← hav]; exact h3)]
    exact ⟨_, rfl⟩

theorem transfer_stock_ok_spec {db : DB} {f t p : Nat} {q : Qty} {db' : DB}
    (h : transfer_stock db f t p q = .ok db') :
    db'.quantity_at f p = db.quantity_at f p - q ∧
    db'.quantity_at t p = db.quantity_at t p + q ∧
    (∀ w2 p2, db'.reserved_at w2 p2 = db.reserved_at w2 p2) ∧
    db'.contacts = db.contacts ∧
    db'.movements = db.movements ++
      [{ warehouse_id := f, product_id := p, movement_type := MovementType.TRANSFER,
         quantity := -q, quantity_before := db.quantity_at f p,
         quantity_after := db.quantity_at f p - q,
         from_warehouse_id := some f, to_warehouse_id := some t },
       { warehouse_id := t, product_id := p, movement_type := MovementType.TRANSFER,
         quantity := q, quantity_before := db.quantity_at t p,
         quantity_after := db.quantity_at t p + q,
         from_warehouse_id := some f, to_warehouse_id := some t }] ∧
    (db.stocks_ok → db'.stocks_ok) := by
  unfold transfer_stock at h
  split at h
  · exact (Except.noConfusion h)
  · split at h
    · exact (Except.noConfusion h)
    · rename_i hq0 hbeq
      have hft : f ≠ t := by
        intro hh
        exact hbeq (by simp [hh])
      cases hg : db.get_stock f p with
      | none => rw [hg] at h; exact (Except.noConfusion h)
      | some fs =>
        rw [hg] at h
        simp only at h
        split at h
        · exact (Except.noConfusion h)
        · rename_i hav
          unfold get_or_create_stock at h
          obtain ⟨hfw, hfp, _⟩ := get_stock_some hg
          have hqf : db.quantity_at f p = fs.quantity := by
            simp [DB.quantity_at, hg]
          cases hgt : db.get_stock t p with
          | some ts =>
            rw [hgt] at h
            simp only at h
            obtain ⟨htw, htp, _⟩ := get_stock_some hgt
            have hqt : db.quantity_at t p = ts.quantity := by
              simp [DB.quantity_at, hgt]
            cases hs1 : save_stock_row { fs with quantity := fs.quantity - q } with
            | error e => rw [hs1] at h; exact (Except.noConfusion h)
            | ok f2 =>
              rw [hs1] at h
              simp only at h
              obtain ⟨rfl, hcl1⟩ := save_stock_row_eq_ok.mp hs1
              cases hs2 : save_stock_row { ts with quantity := ts.quantity + q } with
              | error e => rw [hs2] at h; exact (Except.noConfusion h)
              | ok t2 =>
                rw [hs2] at h
                simp only at h
                obtain ⟨rfl, hcl2⟩ := save_stock_row_eq_ok.mp hs2
                rw [create_movement_transfer] at h
                simp only at h
                rw [create_movement_transfer] at h
                injection h with h
                subst h
                have hgetf : db.get_stock
                    (Stock.warehouse_id { fs with quantity := fs.quantity - q })
                    (Stock.product_id { fs with quantity := fs.quantity - q }) = some fs := by
                  simpa [hfw, hfp] using hg
                have hkey_ne : ¬ (t = ({ fs with quantity := fs.quantity - q } : Stock).warehouse_id
                    ∧ p = ({ fs with quantity := fs.quantity - q } : Stock).product_id) := by
                  simp only [hfw, hfp]
                  rintro ⟨hh, -⟩
                  exact hft hh.symm
                have hgett : (db.put_stock { fs with quantity := fs.quantity - q }).get_stock
                    (Stock.warehouse_id { ts with quantity := ts.quantity + q })
                    (Stock.product_id { ts with quantity := ts.quantity + q }) = some ts := by
                  simp only [htw, htp]
                  rw [get_stock_put_other hkey_ne]
                  exact hgt
                refine ⟨?_, ?_, ?_, rfl, ?_, ?_⟩
                · rw [quantity_at_add_movement, quantity_at_add_movement,
                    quantity_at_put hgett, quantity_at_put hgetf]
                  simp only [hfw, hfp, htw, htp]
                  rw [if_neg (fun hh => hft hh.1), if_pos ⟨trivial, trivial⟩, hqf]
                · rw [quantity_at_add_movement, quantity_at_add_movement,
                    quantity_at_put hgett]
                  simp only [htw, htp]
                  rw [if_pos ⟨trivial, trivial⟩, hqt]
                · intro w2 p2
                  rw [reserved_at_add_movement, reserved_at_add_movement,
                    reserved_at_put hgett, reserved_at_put hgetf]
                  simp only [hfw, hfp, htw, htp]
                  by_cases hk2 : w2 = t ∧ p2 = p
                  · obtain ⟨rfl, rfl⟩ := hk2
                    rw [if_pos ⟨rfl, rfl⟩]
                    simp [DB.reserved_at, hgt]
                  · rw [if_neg hk2]
                    by_cases hk1 : w2 = f ∧ p2 = p
                    · obtain ⟨rfl, rfl⟩ := hk1
                      rw [if_pos ⟨rfl, rfl⟩]
                      simp [DB.reserved_at, hg]
                    · rw [if_neg hk1]
                · rw [movements_add_movement, movements_add_movement,
                    movements_put_stock, movements_put_stock, hqf, hqt]
                  simp
                · intro hok
                  exact stocks_ok_add_movement (stocks_ok_add_movement
                    (stocks_ok_put (stocks_ok_put hok (stock_ok_iff_clean.mpr hcl1))
                      (stock_ok_iff_clean.mpr hcl2)))
          | none =>
            rw [hgt] at h
            simp only at h
            have hqt : db.quantity_at t p = 0 := by
              simp [DB.quantity_at, hgt]
            cases hs1 : save_stock_row { fs with quantity := fs.quantity - q } with
            | error e => rw [hs1] at h; exact (Except.noConfusion h)
            | ok f2 =>
              rw [hs1] at h
              simp only at h
              obtain ⟨rfl, hcl1⟩ := save_stock_row_eq_ok.mp hs1
              cases hs2 : save_stock_row { (⟨t, p, 0, 0⟩ : Stock) with quantity := 0 + q } with
              | error e => rw [hs2] at h; exact (Except.noConfusion h)
              | ok t2 =>
                rw [hs2] at h
                simp only at h
                obtain ⟨rfl, hcl2⟩ := save_stock_row_eq_ok.mp hs2
                rw [create_movement_transfer] at h
                simp only at h
                rw [create_movement_transfer] at h
                injection h with h
                subst h
                have hcreate : (db.create_stock ⟨t, p, 0, 0⟩).get_stock t p =
                    some ⟨t, p, 0, 0⟩ := by
                  rw [get_stock_create, hgt]
                  simp [stock_key_matches]
                have hcreate_other : ∀ w2 p2, ¬ (w2 = t ∧ p2 = p) →
                    (db.create_stock ⟨t, p, 0, 0⟩).get_stock w2 p2 = db.get_stock w2 p2 := by
                  intro w2 p2 hk
                  rw [get_stock_create]
                  cases hg2 : db.get_stock w2 p2 with
                  | some u => rfl
                  | none =>
                    have : stock_key_matches w2 p2 (⟨t, p, 0, 0⟩ : Stock) = false := by
                      rw [Bool.eq_false_iff]
                      intro ht2
                      obtain ⟨h1, h2⟩ := stock_key_matches_iff.mp ht2
                      exact hk ⟨h1.symm, h2.symm⟩
                    simp [this]
                have hgetf : (db.create_stock ⟨t, p, 0, 0⟩).get_stock
                    (Stock.warehouse_id { fs with quantity := fs.quantity - q })
                    (Stock.product_id { fs with quantity := fs.quantity - q }) = some fs := by
                  simp only [hfw, hfp]
                  rw [hcreate_other f p (fun hh => hft hh.1)]
                  exact hg
                have hkey_ne : ¬ (t = ({ fs with quantity := fs.quantity - q } : Stock).warehouse_id
                    ∧ p = ({ fs with quantity := fs.quantity - q } : Stock).product_id) := by
                  simp only [hfw, hfp]
                  rintro ⟨hh, -⟩
                  exact hft hh.symm
                have hgett : ((db.create_stock ⟨t, p, 0, 0⟩).put_stock
                    { fs with quantity := fs.quantity - q }).get_stock
                    (Stock.warehouse_id { (⟨t, p, 0, 0⟩ : Stock) with quantity := 0 + q })
                    (Stock.product_id { (⟨t, p, 0, 0⟩ : Stock) with quantity := 0 + q }) =
                    some ⟨t, p, 0, 0⟩ := by
                  rw [get_stock_put_other hkey_ne]
                  exact hcreate
                refine ⟨?_, ?_, ?_, rfl, ?_, ?_⟩
                · rw [quantity_at_add_movement, quantity_at_add_movement,
                    quantity_at_put hgett, quantity_at_put hgetf]
                  simp only [hfw, hfp]
                  rw [if_neg (fun hh => hft hh.1), if_pos ⟨trivial, trivial⟩, hqf]
                · rw [quantity_at_add_movement, quantity_at_add_movement,
                    quantity_at_put hgett]
                  rw [if_pos ⟨rfl, rfl⟩, hqt]
                · intro w2 p2
                  rw [reserved_at_add_movement, reserved_at_add_movement,
                    reserved_at_put hgett, reserved_at_put hgetf]
                  simp only [hfw, hfp]
                  by_cases hk2 : w2 = t ∧ p2 = p
                  · obtain ⟨rfl, rfl⟩ := hk2
                    rw [if_pos ⟨rfl, rfl⟩]
                    simp [DB.reserved_at, hgt]
                  · rw [if_neg hk2]
                    by_cases hk1 : w2 = f ∧ p2 = p
                    · obtain ⟨rfl, rfl⟩ := hk1
                      rw [if_pos ⟨rfl, rfl⟩]
                      simp [DB.reserved_at, hg]
                    · rw [if_neg hk1]
                      simp only [DB.reserved_at, hcreate_other w2 p2 hk2]
                · rw [movements_add_movement, movements_add_movement,
                    movements_put_stock, movements_put_stock, movements_create_stock,
                    hqf, hqt]
                  simp
                · intro hok
                  exact stocks_ok_add_movement (stocks_ok_add_movement
                    (stocks_ok_put (stocks_ok_put
                        (stocks_ok_create hok (by constructor <;> simp))
                        (stock_ok_iff_clean.mpr hcl1))
                      (stock_ok_iff_clean.mpr hcl2)))

theorem approve_invoice_ok_spec {inv : Invoice} {db : DB} {inv1 : Invoice} {db1 : DB}
    (h : approve_invoice inv db = .ok (inv1, db1)) :
    (inv.status = .DRAFT ∨ inv.status = .PENDING) ∧
    inv.inventory_updated = false ∧
    inv1 = { inv with status := InvoiceStatus.APPROVED, inventory_updated := true } ∧
    ∃ db0, update_inventory_items inv inv.items db = .ok db0 ∧
      db1 = db0.update_balance inv.contact_id
        (match inv.invoice_type with
         | InvoiceType.SALES => inv.total_amount
         | InvoiceType.PURCHASE => -inv.total_amount) := by
  unfold approve_invoice at h
  split at h
  · exact (Except.noConfusion h)
  · rename_i hst
    rw [not_not] at hst
    split at h
    · exact (Except.noConfusion h)
    · rename_i hflag
      cases hchk : (match inv.invoice_type with
          | InvoiceType.SALES => check_sales_stock db inv.warehouse_id inv.items
          | InvoiceType.PURCHASE => Except.ok ()) with
      | error e => rw [hchk] at h; exact (Except.noConfusion h)
      | ok u =>
        rw [hchk] at h
        simp only at h
        cases hui : update_inventory_items inv inv.items db with
        | error e => rw [hui] at h; exact (Except.noConfusion h)
        | ok db0 =>
          rw [hui] at h
          simp only at h
          injection h with h
          injection h with h1 h2
          exact ⟨hst, by simpa using hflag, h1.symm, db0, rfl, h2.symm⟩

theorem approve_invoice_insufficient {inv : Invoice} {db : DB}
    (hty : inv.invoice_type = .SALES)
    (hst : inv.status = .DRAFT ∨ inv.status = .PENDING)
    (hflag : inv.inventory_updated = false)
    (hshort : ∃ item ∈ inv.items,
      db.available_at inv.warehouse_id item.product_id < item.quantity) :
    ∃ m, approve_invoice inv db = .error (.insufficientStockErr m) := by
  obtain ⟨m, hchk⟩ := check_sales_stock_error_of_short inv.items hshort
  refine ⟨m, ?_⟩
  unfold approve_invoice
  rw [if_neg (not_not_intro hst), if_neg (by simp [hflag]), hty]
  simp only
  rw [hchk]

theorem cancel_invoice_ok_spec {inv : Invoice} {db : DB} {inv2 : Invoice} {db2 : DB}
    (h : cancel_invoice inv db = .ok (inv2, db2)) :
    inv.status ≠ .PAID ∧
    inv2 = { inv with status := InvoiceStatus.CANCELLED } ∧
    ∃ db1, (if inv.inventory_updated then reverse_inventory_items inv inv.items db
        else .ok db) = .ok db1 ∧
      db2 = db1.update_balance inv.contact_id
        (match inv.invoice_type with
         | InvoiceType.SALES => -inv.total_amount
         | InvoiceType.PURCHASE => inv.total_amount) := by
  unfold cancel_invoice at h
  split at h
  · exact (Except.noConfusion h)
  · rename_i hpaid
    cases hrev : (if inv.inventory_updated then reverse_inventory_items inv inv.items db
        else .ok db : Except Err DB) with
    | error e => rw [hrev] at h; exact (Except.noConfusion h)
    | ok db1 =>
      rw [hrev] at h
      simp only at h
      injection h with h
      injection h with h1 h2
      exact ⟨hpaid, h1.symm, db1, rfl, h2.symm⟩

theorem cancel_invoice_paid {inv : Invoice} {db : DB} (h : inv.status = .PAID) :
    cancel_invoice inv db = .error (.businessLogicErr "Cannot cancel a paid invoice") := by
  unfold cancel_invoice
  rw [if_pos h]

theorem confirm_assembly_order_ok_spec {o o1 : ProductionOrder} {db db1 : DB}
    (h : confirm_assembly_order o db = .ok (o1, db1)) :
    o.status = .draft ∧ o.order_type = .assembly ∧
    o1 = { o with
           status := OrderStatus.confirmed,
           items := o.items.map (fun i => if i.is_deleted then i else { i with reserved := true }) } ∧
    reserve_order_items o.warehouse_id (o.items.filter (fun i => !i.is_deleted)) db =
      .ok db1 := by
  unfold confirm_assembly_order at h
  split at h
  · exact (Except.noConfusion h)
  · rename_i hst
    split at h
    · exact (Except.noConfusion h)
    · rename_i hty
      cases hres : reserve_order_items o.warehouse_id
          (o.items.filter (fun i => !i.is_deleted)) db with
      | error e => rw [hres] at h; exact (Except.noConfusion h)
      | ok dbr =>
        rw [hres] at h
        simp only at h
        injection h with h
        injection h with h1 h2
        exact ⟨not_not.mp hst, not_not.mp hty, h1.symm, congrArg Except.ok h2⟩

theorem confirm_assembly_order_error_of_short {o : ProductionOrder} {db : DB}
    (hst : o.status = .draft) (hty : o.order_type = .assembly)
    (hok : db.stocks_ok)
    (hpw : (o.items.filter (fun i => !i.is_deleted)).Pairwise
      (fun a b => a.product_id ≠ b.product_id))
    (hshort : ∃ item ∈ o.items.filter (fun i => !i.is_deleted),
      db.available_at o.warehouse_id item.product_id < item.planned_quantity) :
    ∃ m, confirm_assembly_order o db = .error (.validationErr m) := by
  obtain ⟨m, hres⟩ := reserve_order_items_error_of_short
    (o.items.filter (fun i => !i.is_deleted)) db hok hpw hshort
  refine ⟨m, ?_⟩
  unfold confirm_assembly_order
  rw [if_neg (not_not_intro hst), if_neg (not_not_intro hty), hres]

theorem cancel_production_order_ok_spec {o o1 : ProductionOrder} {db db1 : DB}
    (h : cancel_production_order o db = .ok (o1, db1)) :
    ¬ (o.status = .completed ∨ o.status = .cancelled) ∧
    o1 = { o with
           status := OrderStatus.cancelled,
           items := o.items.map (fun i => if i.reserved then { i with reserved := false } else i) } ∧
    release_reserved_items o.warehouse_id (o.items.filter (fun i => i.reserved)) db =
      .ok db1 := by
  unfold cancel_production_order at h
  split at h
  · exact (Except.noConfusion h)
  · rename_i hst
    cases hres : release_reserved_items o.warehouse_id
        (o.items.filter (fun i => i.reserved)) db with
    | error e => rw [hres] at h; exact (Except.noConfusion h)
    | ok dbr =>
      rw [hres] at h
      simp only at h
      injection h with h
      injection h with h1 h2
      exact ⟨hst, h1.symm, congrArg Except.ok h2⟩

theorem consume_components_cons_error (o : ProductionOrder) (c : ActualComponent)
    (rest : List ActualComponent) (db : DB) :
    ∃ e, consume_components o (c :: rest) db = .error e := by
  simp only [consume_components]
  cases hf : o.items.find? (fun i => i.id == c.item_id) with
  | none => exact ⟨_, rfl⟩
  | some item =>
    simp only
    cases hg : db.get_stock o.warehouse_id item.product_id with
    | none => exact ⟨_, rfl⟩
    | some stock =>
      simp only
      cases hs : save_stock_row { stock with
          reserved_quantity := stock.reserved_quantity - item.planned_quantity,
          quantity := stock.quantity - c.actual_quantity } with
      | error e => exact ⟨e, rfl⟩
      | ok s2 =>
        simp only
        unfold create_movement
        rw [if_neg (by rw [consume_kwargs_bad]; exact Bool.false_ne_true)]
        exact ⟨_, rfl⟩

theorem complete_assembly_order_errors (o : ProductionOrder) (aq : Qty)
    (ac : List ActualComponent) (db : DB) :
    ∃ e, complete_assembly_order o aq ac db = .error e := by
  unfold complete_assembly_order
  by_cases hst : o.status ≠ .in_progress
  · rw [if_pos hst]
    exact ⟨_, rfl⟩
  · rw [if_neg hst]
    by_cases hty : o.order_type ≠ .assembly
    · rw [if_pos hty]
      exact ⟨_, rfl⟩
    · rw [if_neg hty]
      simp only
      cases ac with
      | cons c rest =>
        obtain ⟨e, hcc⟩ := consume_components_cons_error
          { o with actual_quantity := aq } c rest db
        rw [hcc]
        exact ⟨e, rfl⟩
      | nil =>
        simp only [consume_components]
        by_cases hz : ({ o with actual_quantity := aq } : ProductionOrder).actual_quantity = 0
        · rw [if_pos hz]
          exact ⟨_, rfl⟩
        · rw [if_neg hz]
          cases hg : db.get_stock ({ o with actual_quantity := aq } : ProductionOrder).warehouse_id
              ({ o with actual_quantity := aq } : ProductionOrder).product_id with
          | none =>
            simp only
            rw [if_neg (by rw [stock_defaults_kwargs_bad]; exact Bool.false_ne_true)]
            exact ⟨_, rfl⟩
          | some fstock =>
            simp only
            cases hs : save_stock_row { fstock with
                quantity := fstock.quantity +
                  ({ o with actual_quantity := aq } : ProductionOrder).actual_quantity } with
            | error e => exact ⟨e, rfl⟩
            | ok f2 =>
              simp only
              unfold create_movement
              rw [if_neg (by rw [output_kwargs_bad]; exact Bool.false_ne_true)]
              exact ⟨_, rfl⟩

theorem release_reserved_items_stocks_ok {W : Nat} :
    ∀ (items : List ProductionOrderItem) (db db' : DB), db.stocks_ok →
      release_reserved_items W items db = .ok db' → db'.stocks_ok := by
  intro items
  induction items with
  | nil => intro db db' hok h; cases h; exact hok
  | cons item rest ih =>
    intro db db' hok h
    simp only [release_reserved_items] at h
    cases hg : db.get_stock W item.product_id with
    | none =>
      rw [hg] at h
      simp only at h
      exact ih db db' hok h
    | some stock =>
      rw [hg] at h
      simp only at h
      cases hs : save_stock_row { stock with
          reserved_quantity := stock.reserved_quantity - item.planned_quantity } with
      | error e => rw [hs] at h; exact (Except.noConfusion h)
      | ok s2 =>
        rw [hs] at h
        simp only at h
        obtain ⟨rfl, hclean⟩ := save_stock_row_eq_ok.mp hs
        exact ih _ db' (stocks_ok_put hok (stock_ok_iff_clean.mpr hclean)) h

theorem reserve_order_items_presence {W : Nat} :
    ∀ (items : List ProductionOrderItem) (db db' : DB),
      reserve_order_items W items db = .ok db' →
      ∀ i ∈ items, (db.get_stock W i.product_id).isSome = true := by
  intro items
  induction items with
  | nil => intro db db' _ i hi; cases hi
  | cons item rest ih =>
    intro db db' h i hi
    simp only [reserve_order_items] at h
    cases hg : db.get_stock W item.product_id with
    | none => rw [hg] at h; exact (Except.noConfusion h)
    | some stock =>
      rw [hg] at h
      simp only at h
      split at h
      · exact (Except.noConfusion h)
      · cases hs : save_stock_row { stock with
            reserved_quantity := stock.reserved_quantity + item.planned_quantity } with
        | error e => rw [hs] at h; exact (Except.noConfusion h)
        | ok s2 =>
          rw [hs] at h
          simp only at h
          obtain ⟨rfl, hclean⟩ := save_stock_row_eq_ok.mp hs
          obtain ⟨hsw, hsp, _⟩ := get_stock_some hg
          rcases List.mem_cons.mp hi with rfl | hi2
          · rw [hg]; rfl
          · have hget : db.get_stock
                (Stock.warehouse_id { stock with
                  reserved_quantity := stock.reserved_quantity + item.planned_quantity })
                (Stock.product_id { stock with
                  reserved_quantity := stock.reserved_quantity + item.planned_quantity }) =
                some stock := by simpa [hsw, hsp] using hg
            have := ih _ db' h i hi2
            rw [isSome_put hget] at this
            exact this

theorem available_at_eq_sub {db : DB} {w p : Nat} (hok : db.stocks_ok)
    (hpres : (db.get_stock w p).isSome = true) :
    db.available_at w p = db.quantity_at w p - db.reserved_at w p := by
  cases hg : db.get_stock w p with
  | none => rw [hg] at hpres; cases hpres
  | some s =>
    have hs := stocks_ok_get hok hg
    obtain ⟨h1, h2⟩ := hs
    have h3 : (0 : Qty) ≤ s.quantity - s.reserved_quantity := by linarith
    simp only [DB.available_at, DB.quantity_at, DB.reserved_at, hg]
    simp only [Stock.available_quantity]
    exact max_eq_right h3

theorem planned_delta_zero {p : Nat} :
    ∀ items : List ProductionOrderItem, (∀ j ∈ items, j.product_id ≠ p) →
      planned_delta items p = 0 := by
  intro items
  induction items with
  | nil => intro _; rfl
  | cons i rest ih =>
    intro h
    rw [planned_delta_cons, if_neg (h i (List.mem_cons_self i rest)),
      ih (fun j hj => h j (List.mem_cons_of_mem i hj)), add_zero]

theorem planned_delta_eq_of_mem :
    ∀ (items : List ProductionOrderItem),
      items.Pairwise (fun a b => a.product_id ≠ b.product_id) →
      ∀ i ∈ items, planned_delta items i.product_id = i.planned_quantity := by
  intro items
  induction items with
  | nil => intro _ i hi; cases hi
  | cons a rest ih =>
    intro hpw i hi
    obtain ⟨hhead, hrest⟩ := List.pairwise_cons.mp hpw
    rcases List.mem_cons.mp hi with rfl | hi2
    · rw [planned_delta_cons, if_pos rfl,
        planned_delta_zero rest (fun j hj hh => hhead j hj hh.symm),
        add_zero]
    · rw [planned_delta_cons, if_neg (hhead i hi2), zero_add]
      exact ih hrest i hi2

theorem planned_delta_map_set_reserved (l : List ProductionOrderItem) (p : Nat) :
    planned_delta (l.map (fun i => { i with reserved := true })) p = planned_delta l p := by
  induction l with
  | nil => rfl
  | cons a rest ih =>
    simp only [List.map, planned_delta_cons, ih]

theorem filter_reserved_confirmed :
    ∀ items : List ProductionOrderItem, (∀ i ∈ items, i.reserved = false) →
      (items.map (fun i => if i.is_deleted then i else { i with reserved := true })).filter
        (fun i => i.reserved) =
      (items.filter (fun i => !i.is_deleted)).map (fun i => { i with reserved := true }) := by
  intro items
  induction items with
  | nil => intro _; rfl
  | cons a rest ih =>
    intro h
    have ha := h a (List.mem_cons_self a rest)
    have hrest := fun i hi => h i (List.mem_cons_of_mem a hi)
    by_cases hd : a.is_deleted = true
    · simp [hd, ha, ih hrest]
    · have hd' : a.is_deleted = false := by simpa using hd
      simp [hd', ha, ih hrest]

theorem update_balance_contacts_eq {db db' : DB} {cid : Nat} {a : Qty}
    (h : db.contacts = db'.contacts) :
    (db.update_balance cid a).contacts = (db'.update_balance cid a).contacts := by
  simp [DB.update_balance, h]

theorem filter_map_toComponent (cds : List ComponentData) :
    (cds.map ComponentData.toComponent).filter (fun c => !c.is_deleted) =
      cds.map ComponentData.toComponent := by
  induction cds with
  | nil => rfl
  | cons c rest ih =>
    simp [ComponentData.toComponent, ih]

theorem filter_map_mark_deleted (l : List BOMComponent) :
    (l.map (fun c => { c with is_deleted := true })).filter (fun c => !c.is_deleted) = [] := by
  induction l with
  | nil => rfl
  | cons c rest ih =>
    simp [ih]

/-- Claim C9: for every BOM, total_cost_per_unit = estimated_material_cost +
labor_cost + overhead_cost, where estimated_material_cost is the sum of
quantity × unit_cost over non-deleted components, and the identity is
re-established by the full recompute in create_bom and update_bom whenever
components are added, updated, or removed. -/
theorem claim_C9_bom_cost :
    (∀ b : BillOfMaterials,
       b.total_cost_per_unit = b.estimated_material_cost + b.labor_cost + b.overhead_cost) ∧
    (∀ (pid : Nat) (lc oc : Qty) (cds : List ComponentData),
       (create_bom pid lc oc cds).estimated_material_cost =
         material_cost_sum
           ((create_bom pid lc oc cds).components.filter (fun c => !c.is_deleted)) ∧
       (create_bom pid lc oc cds).total_cost_per_unit =
         material_cost_sum
           ((create_bom pid lc oc cds).components.filter (fun c => !c.is_deleted)) + lc + oc) ∧
    (∀ (b : BillOfMaterials) (cds : List ComponentData),
       (update_bom b (some cds)).estimated_material_cost =
         material_cost_sum
           ((update_bom b (some cds)).components.filter (fun c => !c.is_deleted)) ∧
       (update_bom b (some cds)).total_cost_per_unit =
         material_cost_sum
           ((update_bom b (some cds)).components.filter (fun c => !c.is_deleted))
           + b.labor_cost + b.overhead_cost) := by
  refine ⟨fun b => rfl, ?_, ?_⟩
  · intro pid lc oc cds
    constructor
    · simp only [create_bom, filter_map_toComponent]
    · simp only [create_bom, BillOfMaterials.total_cost_per_unit, filter_map_toComponent]
  · intro b cds
    constructor
    · simp only [update_bom]
    · simp only [update_bom, BillOfMaterials.total_cost_per_unit]

/-- Claim C7: the spec says complete_assembly consumes components, adds the
output, logs PRODUCTION movements, recomputes material_cost and completes
the order; the code instead always raises before committing anything: every
StockMovement create passes the kwarg stock, which is not a field of
StockMovement (TypeError), the get_or_create defaults pass unit_cost, not a
Stock field, the division total_cost / actual_quantity raises
ZeroDivisionError when actual output is zero, and material_cost is never
recomputed.  complete_assembly_order therefore errors on every input; the
conjunct evaluates it at an in-progress assembly order with one component. -/
theorem claim_C7_complete_assembly_crashes :
    (∀ (o : ProductionOrder) (aq : Qty) (ac : List ActualComponent) (db : DB),
       ∃ e, complete_assembly_order o aq ac db = .error e) ∧
    complete_assembly_order c7order 2 [⟨1, 2⟩] c7db =
      .error (.typeErr "StockMovement got an unexpected keyword argument") := by
  exact ⟨complete_assembly_order_errors, by decide⟩

/-- Claim C10: cancelling an invoice that was never approved (not PAID,
inventory_updated = false) still mutates the contact balance — subtracting
total_amount for SALES and adding it for PURCHASE — and leaves the
inventory_updated flag unchanged (false); stocks and movements are
untouched. -/
theorem claim_C10_cancel_unapproved_mutates_balance :
    ∀ (inv : Invoice) (db : DB) (c0 : Contact),
      inv.status ≠ .PAID → inv.inventory_updated = false →
      db.contacts.find? (fun c => c.id == inv.contact_id) = some c0 →
      ∃ inv2 db2, cancel_invoice inv db = .ok (inv2, db2) ∧
        inv2.status = .CANCELLED ∧
        inv2.inventory_updated = false ∧
        db2.stocks = db.stocks ∧
        db2.movements = db.movements ∧
        db2.balance_at inv.contact_id = c0.current_balance +
          (match inv.invoice_type with
           | InvoiceType.SALES => -inv.total_amount
           | InvoiceType.PURCHASE => inv.total_amount) := by
  intro inv db c0 hpaid hflag hfind
  refine ⟨{ inv with status := InvoiceStatus.CANCELLED },
    db.update_balance inv.contact_id
      (match inv.invoice_type with
       | InvoiceType.SALES => -inv.total_amount
       | InvoiceType.PURCHASE => inv.total_amount), ?_, rfl, hflag, rfl, rfl, ?_⟩
  · unfold cancel_invoice
    rw [if_neg hpaid, if_neg (by simp [hflag])]
  · exact balance_at_update_balance_self hfind

/-- Claim C8 (amended): adjust_stock applies a signed delta; it fails with a
ValidationError-class error leaving the row unchanged when the new quantity
would be negative, and also — which the original claim missed — when the
new quantity would fall below reserved_quantity (the Stock save validation);
only when reserved_quantity ≤ new quantity does it persist the new quantity
and emit exactly one ADJUSTMENT movement recording quantity_before and
quantity_after. -/
theorem claim_C8_adjust_stock :
    ∀ (db : DB) (w p : Nat) (q : Qty) (s : Stock),
      db.get_stock w p = some s → db.stocks_ok →
      (s.quantity + q < 0 →
        ∃ m, commit db (adjust_stock db w p q) = (db, some (.validationErr m))) ∧
      (s.quantity + q < s.reserved_quantity →
        ∃ m, commit db (adjust_stock db w p q) = (db, some (.validationErr m))) ∧
      (s.reserved_quantity ≤ s.quantity + q →
        ∃ db2, adjust_stock db w p q = .ok db2 ∧
          db2.quantity_at w p = s.quantity + q ∧
          (∀ w2 p2, db2.reserved_at w2 p2 = db.reserved_at w2 p2) ∧
          db2.movements = db.movements ++
            [{ warehouse_id := w, product_id := p,
               movement_type := MovementType.ADJUSTMENT, quantity := q,
               quantity_before := s.quantity, quantity_after := s.quantity + q }]) := by
  intro db w p q s hg hok
  have hs := stocks_ok_get hok hg
  obtain ⟨hspec1, hspec2⟩ := adjust_stock_spec hg
  refine ⟨?_, ?_, ?_⟩
  · intro hneg
    obtain ⟨m, hm⟩ := hspec1 (fun hcl => absurd (le_trans hcl.1 hcl.2) (not_le.mpr hneg))
    exact ⟨m, by rw [hm, commit_error]⟩
  · intro hlt
    obtain ⟨m, hm⟩ := hspec1 (fun hcl => absurd hcl.2 (not_le.mpr hlt))
    exact ⟨m, by rw [hm, commit_error]⟩
  · intro hle
    have hres := hspec2 ⟨hs.1, hle⟩
    obtain ⟨hsw, hsp, _⟩ := get_stock_some hg
    have hget : db.get_stock (Stock.warehouse_id { s with quantity := s.quantity + q })
        (Stock.product_id { s with quantity := s.quantity + q }) = some s := by
      simpa [hsw, hsp] using hg
    refine ⟨_, hres, ?_, ?_, ?_⟩
    · rw [quantity_at_add_movement, quantity_at_put hget]
      simp only [hsw, hsp]
      rw [if_pos (by simp)]
    · intro w2 p2
      rw [reserved_at_add_movement, reserved_at_put hget]
      simp only [hsw, hsp]
      by_cases hk : w2 = w ∧ p2 = p
      · obtain ⟨rfl, rfl⟩ := hk
        rw [if_pos (by simp)]
        simp [DB.reserved_at, hg]
      · rw [if_neg hk]
    · rw [movements_add_movement, movements_put_stock]

/-- Claim C2 (amended): approving a SALES invoice in DRAFT or PENDING whose
inventory_updated flag is still false, with at least one line whose
quantity exceeds the available quantity at the invoice warehouse, fails
with InsufficientStockError and the transaction rolls back, leaving the
invoice and the whole database unchanged; but a DRAFT or PENDING invoice
whose inventory_updated flag is already true — reachable by approving and
then deleting a partial payment, which regresses the status to PENDING —
is rejected earlier, by the idempotency guard with BusinessLogicError,
before any stock check, so the original claim's unconditional
InsufficientStock outcome is wrong for those invoices. -/
theorem claim_C2_approve_insufficient_atomic :
    (∀ (inv : Invoice) (db : DB),
      inv.invoice_type = .SALES →
      (inv.status = .DRAFT ∨ inv.status = .PENDING) →
      inv.inventory_updated = false →
      (∃ item ∈ inv.items,
        db.available_at inv.warehouse_id item.product_id < item.quantity) →
      ∃ m, commit (inv, db) (approve_invoice inv db) =
        ((inv, db), some (.insufficientStockErr m))) ∧
    (∀ (inv : Invoice) (db : DB),
      (inv.status = .DRAFT ∨ inv.status = .PENDING) →
      inv.inventory_updated = true →
      commit (inv, db) (approve_invoice inv db) =
        ((inv, db), some (.businessLogicErr "Invoice inventory already updated"))) := by
  constructor
  · intro inv db hty hst hflag hshort
    obtain ⟨m, hm⟩ := approve_invoice_insufficient hty hst hflag hshort
    exact ⟨m, by rw [hm, commit_error]⟩
  · intro inv db hst hflag
    unfold approve_invoice
    rw [if_neg (not_not_intro hst), if_pos hflag, commit_error]

/-- Claim C4 (amended): a successful transfer is zero-sum — the source stock
decreases by exactly q and the destination increases by exactly q — and
exactly two StockMovement rows are created, both of movement_type TRANSFER
(quantity −q at the source and +q at the destination, not OUT/IN as the
original claim stated), each carrying the from/to warehouse references;
transfer fails with InsufficientStockError when available_quantity(from) <
q, and with ValidationError when from = to or q ≤ 0, leaving the database
unchanged. -/
theorem claim_C4_transfer_stock :
    (∀ (db : DB) (f t p : Nat) (q : Qty), (q ≤ 0 ∨ f = t) →
       ∃ m, commit db (transfer_stock db f t p q) = (db, some (.validationErr m))) ∧
    (∀ (db : DB) (f t p : Nat) (q : Qty), 0 < q → f ≠ t →
       db.available_at f p < q →
       ∃ m, commit db (transfer_stock db f t p q) = (db, some (.insufficientStockErr m))) ∧
    (∀ (db : DB) (f t p : Nat) (q : Qty) (db2 : DB),
       transfer_stock db f t p q = .ok db2 →
       db2.quantity_at f p = db.quantity_at f p - q ∧
       db2.quantity_at t p = db.quantity_at t p + q ∧
       db2.movements = db.movements ++
         [{ warehouse_id := f, product_id := p, movement_type := MovementType.TRANSFER,
            quantity := -q, quantity_before := db.quantity_at f p,
            quantity_after := db.quantity_at f p - q,
            from_warehouse_id := some f, to_warehouse_id := some t },
          { warehouse_id := t, product_id := p, movement_type := MovementType.TRANSFER,
            quantity := q, quantity_before := db.quantity_at t p,
            quantity_after := db.quantity_at t p + q,
            from_warehouse_id := some f, to_warehouse_id := some t }]) := by
  refine ⟨?_, ?_, ?_⟩
  · intro db f t p q h
    obtain ⟨m, hm⟩ := @transfer_stock_validation db f t p q h
    exact ⟨m, by rw [hm, commit_error]⟩
  · intro db f t p q h1 h2 h3
    obtain ⟨m, hm⟩ := transfer_stock_insufficient h1 h2 h3
    exact ⟨m, by rw [hm, commit_error]⟩
  · intro db f t p q db2 h
    obtain ⟨hqf, hqt, _, _, hmv, _⟩ := transfer_stock_ok_spec h
    exact ⟨hqf, hqt, hmv⟩

/-- Claim C5 (amended): approve_invoice succeeds only when the status is
DRAFT or PENDING and inventory_updated is false.  Re-approving an
already-approved invoice is rejected and the transaction leaves state
unchanged (no second stock decrement) — but the rejection comes from the
DRAFT/PENDING status guard (approval set status=APPROVED), not from the
inventory_updated guard, which is a second check reachable only for
DRAFT/PENDING invoices whose flag is already set. -/
theorem claim_C5_approve_guards :
    (∀ (inv : Invoice) (db : DB) (r : Invoice × DB), approve_invoice inv db = .ok r →
       (inv.status = .DRAFT ∨ inv.status = .PENDING) ∧ inv.inventory_updated = false) ∧
    (∀ (inv : Invoice) (db : DB) (inv1 : Invoice) (db1 : DB),
       approve_invoice inv db = .ok (inv1, db1) →
       commit (inv1, db1) (approve_invoice inv1 db1) =
         ((inv1, db1), some (.businessLogicErr "Cannot approve invoice with status APPROVED"))) := by
  constructor
  · rintro inv db ⟨inv1, db1⟩ h
    obtain ⟨hst, hflag, -⟩ := approve_invoice_ok_spec h
    exact ⟨hst, hflag⟩
  · intro inv db inv1 db1 h
    obtain ⟨-, -, hinv1, -⟩ := approve_invoice_ok_spec h
    subst hinv1
    unfold approve_invoice
    rw [if_pos (by simp)]
    rw [commit_error]
    rfl

/-- Claim C1: the stock invariant 0 ≤ reserved_quantity ≤ quantity is
preserved by every core operation — stock adjust, transfer, reserve,
release, invoice approve and cancel, production order confirm, complete and
cancel.  Each operation runs in one atomic transaction, so on an error the
modelled state is unchanged (commit-or-rollback); on success the invariant
holds for every stock row of the new state. -/
theorem claim_C1_stock_invariant :
    (∀ (db : DB) (w p : Nat) (q : Qty) (db2 : DB), db.stocks_ok →
       adjust_stock db w p q = .ok db2 → db2.stocks_ok) ∧
    (∀ (db : DB) (f t p : Nat) (q : Qty) (db2 : DB), db.stocks_ok →
       transfer_stock db f t p q = .ok db2 → db2.stocks_ok) ∧
    (∀ (s : Stock) (q : Qty) (s2 : Stock), stock_ok s →
       Stock.reserve s q = .ok s2 → stock_ok s2) ∧
    (∀ (s : Stock) (q : Qty) (s2 : Stock), stock_ok s →
       Stock.release s q = .ok s2 → stock_ok s2) ∧
    (∀ (inv : Invoice) (db : DB) (r : Invoice × DB), db.stocks_ok →
       approve_invoice inv db = .ok r → r.2.stocks_ok) ∧
    (∀ (inv : Invoice) (db : DB) (r : Invoice × DB), db.stocks_ok →
       cancel_invoice inv db = .ok r → r.2.stocks_ok) ∧
    (∀ (o : ProductionOrder) (db : DB) (r : ProductionOrder × DB), db.stocks_ok →
       confirm_assembly_order o db = .ok r → r.2.stocks_ok) ∧
    (∀ (o : ProductionOrder) (aq : Qty) (ac : List ActualComponent) (db : DB), db.stocks_ok →
       ((commit (o, db) (complete_assembly_order o aq ac db)).1).2.stocks_ok) ∧
    (∀ (o : ProductionOrder) (db : DB) (r : ProductionOrder × DB), db.stocks_ok →
       cancel_production_order o db = .ok r → r.2.stocks_ok) := by
  refine ⟨?_, ?_, ?_, ?_, ?_, ?_, ?_, ?_, ?_⟩
  · intro db w p q db2 hok h
    exact adjust_stock_stocks_ok hok h
  · intro db f t p q db2 hok h
    exact (transfer_stock_ok_spec h).2.2.2.2.2 hok
  · intro s q s2 _ h
    unfold Stock.reserve at h
    split at h
    · exact (Except.noConfusion h)
    · obtain ⟨rfl, hclean⟩ := save_stock_row_eq_ok.mp h
      exact stock_ok_iff_clean.mpr hclean
  · intro s q s2 _ h
    unfold Stock.release at h
    obtain ⟨rfl, hclean⟩ := save_stock_row_eq_ok.mp h
    exact stock_ok_iff_clean.mpr hclean
  · rintro inv db ⟨inv1, db1⟩ hok h
    obtain ⟨-, -, -, db0, hui, hdb1⟩ := approve_invoice_ok_spec h
    have h0 := (update_inventory_items_spec inv.items db db0 hui).2.2.2.2 hok
    subst hdb1
    exact stocks_ok_update_balance h0
  · rintro inv db ⟨inv2, db2⟩ hok h
    obtain ⟨-, -, db1, hrev, hdb2⟩ := cancel_invoice_ok_spec h
    subst hdb2
    apply stocks_ok_update_balance
    by_cases hflag : inv.inventory_updated = true
    · rw [if_pos hflag] at hrev
      exact (reverse_inventory_items_spec inv.items db db1 hrev).2.2.2.2 hok
    · rw [if_neg hflag] at hrev
      injection hrev with hrev
      subst hrev
      exact hok
  · rintro o db ⟨o1, db1⟩ hok h
    obtain ⟨-, -, -, hres⟩ := confirm_assembly_order_ok_spec h
    exact (reserve_order_items_spec _ db db1 hres).2.2.2.2.2 hok
  · intro o aq ac db hok
    obtain ⟨e, he⟩ := complete_assembly_order_errors o aq ac db
    rw [he, commit_error]
    exact hok
  · rintro o db ⟨o1, db1⟩ hok h
    obtain ⟨-, -, hres⟩ := cancel_production_order_ok_spec h
    exact release_reserved_items_stocks_ok _ db db1 hok hres

/-- Claim C6 (amended): confirming an assembly production order succeeds only
from status draft; when some non-deleted item has available_quantity <
planned_quantity at the order's warehouse the operation fails — with a
ValidationError-class error, not InsufficientStockError as the original
claim stated — and the transaction leaves state unchanged (no partial
reservation); on success every non-deleted item is marked reserved, the
status becomes confirmed, each such item's available_quantity drops by
exactly its planned_quantity while raw quantities are untouched, and a
subsequent cancel of the confirmed order releases exactly that
reservation, restoring every reserved_quantity and quantity to its
pre-confirmation value. -/
theorem claim_C6_confirm_assembly :
    (∀ (o : ProductionOrder) (db : DB) (r : ProductionOrder × DB),
       confirm_assembly_order o db = .ok r → o.status = .draft) ∧
    (∀ (o : ProductionOrder) (db : DB), db.stocks_ok →
       o.status = .draft → o.order_type = .assembly →
       (o.items.filter (fun i => !i.is_deleted)).Pairwise
         (fun a b => a.product_id ≠ b.product_id) →
       (∃ item ∈ o.items.filter (fun i => !i.is_deleted),
          db.available_at o.warehouse_id item.product_id < item.planned_quantity) →
       ∃ m, commit (o, db) (confirm_assembly_order o db) =
         ((o, db), some (.validationErr m))) ∧
    (∀ (o : ProductionOrder) (db : DB) (o1 : ProductionOrder) (db1 : DB),
       db.stocks_ok →
       (o.items.filter (fun i => !i.is_deleted)).Pairwise
         (fun a b => a.product_id ≠ b.product_id) →
       (∀ i ∈ o.items, i.reserved = false) →
       (∀ i ∈ o.items, 0 ≤ i.planned_quantity) →
       confirm_assembly_order o db = .ok (o1, db1) →
       o1.status = .confirmed ∧
       (∀ i ∈ o1.items, i.is_deleted = false → i.reserved = true) ∧
       (∀ i ∈ o.items.filter (fun i => !i.is_deleted),
          db1.available_at o.warehouse_id i.product_id =
            db.available_at o.warehouse_id i.product_id - i.planned_quantity) ∧
       (∀ w p, db1.quantity_at w p = db.quantity_at w p) ∧
       (∃ o2 db2, cancel_production_order o1 db1 = .ok (o2, db2) ∧
          (∀ w p, db2.reserved_at w p = db.reserved_at w p) ∧
          (∀ w p, db2.quantity_at w p = db.quantity_at w p))) := by
  refine ⟨?_, ?_, ?_⟩
  · rintro o db ⟨o1, db1⟩ h
    exact (confirm_assembly_order_ok_spec h).1
  · intro o db hok hst hty hpw hshort
    obtain ⟨m, hm⟩ := confirm_assembly_order_error_of_short hst hty hok hpw hshort
    exact ⟨m, by rw [hm, commit_error]⟩
  · intro o db o1 db1 hok hpw hres0 hplnn h
    obtain ⟨hst, hty, ho1, hres⟩ := confirm_assembly_order_ok_spec h
    have ho1st : o1.status = OrderStatus.confirmed := by rw [ho1]
    have ho1w : o1.warehouse_id = o.warehouse_id := by rw [ho1]
    have ho1items : o1.items =
        o.items.map (fun i => if i.is_deleted then i else { i with reserved := true }) := by
      rw [ho1]
    have hpres := reserve_order_items_presence
      (o.items.filter (fun i => !i.is_deleted)) db db1 hres
    obtain ⟨hr, hq, hmv, hct, hiso, hok1'⟩ :=
      reserve_order_items_spec (o.items.filter (fun i => !i.is_deleted)) db db1 hres
    have hok1 : db1.stocks_ok := hok1' hok
    refine ⟨ho1st, ?_, ?_, hq, ?_⟩
    · intro i hi hid
      rw [ho1items] at hi
      obtain ⟨j, hj, rfl⟩ := List.mem_map.mp hi
      by_cases hd : j.is_deleted = true
      · rw [if_pos hd] at hid
        rw [hid] at hd
        cases hd
      · rw [if_neg hd]
    · intro i hi
      have hpi : (db.get_stock o.warehouse_id i.product_id).isSome = true := hpres i hi
      have hpi1 : (db1.get_stock o.warehouse_id i.product_id).isSome = true := by
        rw [hiso]
        exact hpi
      rw [available_at_eq_sub hok1 hpi1, available_at_eq_sub hok hpi,
        hq, hr, if_pos rfl,
        planned_delta_eq_of_mem (o.items.filter (fun k => !k.is_deleted)) hpw i hi]
      ring
    · have hpwM : ((o.items.filter (fun i => !i.is_deleted)).map
          (fun i => { i with reserved := true })).Pairwise
          (fun a b => a.product_id ≠ b.product_id) :=
        List.pairwise_map.mpr (hpw.imp (fun h => h))
      have hpresM : ∀ i ∈ (o.items.filter (fun i => !i.is_deleted)).map
          (fun i => { i with reserved := true }),
          (db1.get_stock o.warehouse_id i.product_id).isSome = true := by
        intro i hi
        obtain ⟨j, hj, rfl⟩ := List.mem_map.mp hi
        rw [hiso]
        exact hpres j hj
      have hboundM : ∀ i ∈ (o.items.filter (fun i => !i.is_deleted)).map
          (fun i => { i with reserved := true }),
          0 ≤ i.planned_quantity ∧
          i.planned_quantity ≤ db1.reserved_at o.warehouse_id i.product_id := by
        intro i hi
        obtain ⟨j, hj, rfl⟩ := List.mem_map.mp hi
        have hjm : j ∈ o.items := (List.mem_filter.mp hj).1
        have hrnn : 0 ≤ db.reserved_at o.warehouse_id j.product_id := by
          cases hg : db.get_stock o.warehouse_id j.product_id with
          | none =>
            have hp := hpres j hj
            rw [hg] at hp
            cases hp
          | some s =>
            have hs := stocks_ok_get hok hg
            simp [DB.reserved_at, hg]
            exact hs.1
        constructor
        · exact hplnn j hjm
        · show j.planned_quantity ≤ db1.reserved_at o.warehouse_id j.product_id
          rw [hr, if_pos rfl,
            planned_delta_eq_of_mem (o.items.filter (fun k => !k.is_deleted)) hpw j hj]
          linarith
      obtain ⟨db2, hrel⟩ := release_reserved_items_ok
        ((o.items.filter (fun i => !i.is_deleted)).map (fun i => { i with reserved := true }))
        db1 hok1 hpwM hpresM hboundM
      have hfilt : o1.items.filter (fun i => i.reserved) =
          (o.items.filter (fun i => !i.is_deleted)).map
            (fun i => { i with reserved := true }) := by
        rw [ho1items]
        exact filter_reserved_confirmed o.items hres0
      have hcan : cancel_production_order o1 db1 = .ok
          ({ o1 with
             status := OrderStatus.cancelled,
             items := o1.items.map
               (fun i => if i.reserved then { i with reserved := false } else i) }, db2) := by
        unfold cancel_production_order
        rw [if_neg (by rw [ho1st]; simp), ho1w, hfilt, hrel]
      obtain ⟨hr2, hq2, _, _, _, _⟩ :=
        release_reserved_items_spec
          ((o.items.filter (fun i => !i.is_deleted)).map (fun i => { i with reserved := true }))
          db1 db2 hpresM hrel
      refine ⟨_, db2, hcan, ?_, ?_⟩
      · intro w p
        rw [hr2, hr, planned_delta_map_set_reserved]
        ring
      · intro w p
        rw [hq2, hq]

/-- Claim C3 (amended): cancellation is disallowed when status is PAID; for
an inventory_updated invoice, cancel_invoice reverses every line's stock
effect with ADJUSTMENT-type reversal movements (one per line, reference
type invoice_reversal), applies the opposite contact-balance delta
(subtracting total_amount for SALES), and sets status CANCELLED —
approve-then-cancel restores every stock quantity and the whole contact
table exactly — but, contrary to the original claim, cancel_invoice never
resets inventory_updated to false: the flag stays true on the cancelled
invoice. -/
theorem claim_C3_cancel_invoice :
    (∀ (inv : Invoice) (db : DB), inv.status = .PAID →
       commit (inv, db) (cancel_invoice inv db) =
         ((inv, db), some (.businessLogicErr "Cannot cancel a paid invoice"))) ∧
    (∀ (inv : Invoice) (db : DB) (inv2 : Invoice) (db2 : DB) (c0 : Contact),
       inv.inventory_updated = true →
       db.contacts.find? (fun c => c.id == inv.contact_id) = some c0 →
       cancel_invoice inv db = .ok (inv2, db2) →
       inv2.status = .CANCELLED ∧
       inv2.inventory_updated = true ∧
       (∀ w p, db2.quantity_at w p = db.quantity_at w p -
          (if w = inv.warehouse_id then
             inv.invoice_type.stock_sign * items_delta inv.items p else 0)) ∧
       (∃ ms, db2.movements = db.movements ++ ms ∧ ms.length = inv.items.length ∧
          ∀ m ∈ ms, m.movement_type = MovementType.ADJUSTMENT ∧
            m.reference_type = "invoice_reversal") ∧
       db2.balance_at inv.contact_id = c0.current_balance +
         (match inv.invoice_type with
          | InvoiceType.SALES => -inv.total_amount
          | InvoiceType.PURCHASE => inv.total_amount)) ∧
    (∀ (inv : Invoice) (db : DB) (inv1 : Invoice) (db1 : DB) (inv2 : Invoice) (db2 : DB),
       approve_invoice inv db = .ok (inv1, db1) →
       cancel_invoice inv1 db1 = .ok (inv2, db2) →
       (∀ w p, db2.quantity_at w p = db.quantity_at w p) ∧
       db2.contacts = db.contacts ∧
       inv2.inventory_updated = true) := by
  refine ⟨?_, ?_, ?_⟩
  · intro inv db hp
    rw [cancel_invoice_paid hp, commit_error]
  · intro inv db inv2 db2 c0 hflag hfind hcan
    obtain ⟨hpaid, hinv2, db1x, hrev, hdb2⟩ := cancel_invoice_ok_spec hcan
    rw [if_pos hflag] at hrev
    obtain ⟨hq1, hr1, hc1, ⟨ms, hms, hlen, hprop⟩, hok1⟩ :=
      reverse_inventory_items_spec inv.items db db1x hrev
    refine ⟨by rw [hinv2], ?_, ?_, ⟨ms, ?_, hlen, hprop⟩, ?_⟩
    · rw [hinv2]
      exact hflag
    · intro w p
      rw [hdb2, quantity_at_update_balance, hq1 w p]
      by_cases hw : w = inv.warehouse_id
      · rw [if_pos hw, if_pos hw]
        ring
      · rw [if_neg hw, if_neg hw]
        ring
    · rw [hdb2, movements_update_balance, hms]
    · rw [hdb2]
      exact balance_at_update_balance_self (by rw [hc1]; exact hfind)
  · intro inv db inv1 db1 inv2 db2 hap hcan
    obtain ⟨-, -, hinv1, db0, hui, hdb1⟩ := approve_invoice_ok_spec hap
    obtain ⟨-, hinv2, db1x, hrev, hdb2⟩ := cancel_invoice_ok_spec hcan
    have hfl1 : inv1.inventory_updated = true := by rw [hinv1]
    have hw1 : inv1.warehouse_id = inv.warehouse_id := by rw [hinv1]
    have hty1 : inv1.invoice_type = inv.invoice_type := by rw [hinv1]
    have hit1 : inv1.items = inv.items := by rw [hinv1]
    have hcid1 : inv1.contact_id = inv.contact_id := by rw [hinv1]
    have hta1 : inv1.total_amount = inv.total_amount := by rw [hinv1]
    rw [if_pos hfl1, hit1] at hrev
    rw [hcid1] at hdb2
    obtain ⟨hq0, hr0, hc0, hms0, hok0⟩ := update_inventory_items_spec inv.items db db0 hui
    obtain ⟨hq1, hr1, hc1, hms1, hok1⟩ := reverse_inventory_items_spec inv.items db1 db1x hrev
    simp only [hw1, hty1] at hq1
    refine ⟨?_, ?_, ?_⟩
    · intro w p
      rw [hdb2, quantity_at_update_balance, hq1 w p, hdb1, quantity_at_update_balance,
        hq0 w p]
      by_cases hw : w = inv.warehouse_id
      · rw [if_pos hw, if_pos hw]
        ring
      · rw [if_neg hw, if_neg hw]
        ring
    · have hzero : (match inv.invoice_type with
          | InvoiceType.SALES => inv.total_amount
          | InvoiceType.PURCHASE => -inv.total_amount) +
          (match inv1.invoice_type with
           | InvoiceType.SALES => -inv1.total_amount
           | InvoiceType.PURCHASE => inv1.total_amount) = 0 := by
        simp only [hty1, hta1]
        cases inv.invoice_type <;> simp
      rw [hdb2, update_balance_contacts_eq hc1, hdb1, update_balance_update_balance,
        hzero, update_balance_zero]
      exact hc0
    · rw [hinv2]
      exact hfl1

/-- The original C2 text says every DRAFT or PENDING SALES invoice with a
short line fails with InsufficientStock; this PENDING SALES invoice with a
short line but inventory_updated already true is rejected by the
idempotency guard with BusinessLogicError instead, before any stock
check. -/
theorem claim_C2_counterexample :
    c2cinv.invoice_type = .SALES ∧ c2cinv.status = .PENDING ∧
    c2wdb.available_at c2cinv.warehouse_id 1 < 5 ∧
    (⟨1, 5⟩ : InvoiceItem) ∈ c2cinv.items ∧
    approve_invoice c2cinv c2wdb =
      .error (.businessLogicErr "Invoice inventory already updated") ∧
    error_is_insufficient (approve_invoice c2cinv c2wdb) = false := by
  decide

/-- The original C3 text says cancel_invoice resets inventory_updated to
false; on this concrete approved invoice the cancelled invoice keeps
inventory_updated = true. -/
theorem claim_C3_counterexample :
    cancel_invoice c3pinv c3pdb = .ok (c3pinv2, c3pdb2) ∧
    c3pinv2.inventory_updated = true := by
  decide

/-- The original C4 text says the two movements are an OUT at the source and
an IN at the destination; the code creates two TRANSFER movements. -/
theorem claim_C4_counterexample :
    transfer_stock c4db 1 2 1 20 = .ok c4res ∧
    c4res.movements.map (fun m => m.movement_type) =
      [MovementType.TRANSFER, MovementType.TRANSFER] ∧
    MovementType.TRANSFER ≠ MovementType.OUT ∧
    MovementType.TRANSFER ≠ MovementType.IN := by
  decide

/-- The original C5 text says re-approval is rejected by the
inventory_updated guard; re-approving this concrete approved invoice is
rejected with the status-guard message, not the inventory-guard one. -/
theorem claim_C5_counterexample :
    approve_invoice c5inv c5db = .ok (c5inv1, c5db1) ∧
    approve_invoice c5inv1 c5db1 =
      .error (.businessLogicErr "Cannot approve invoice with status APPROVED") ∧
    "Cannot approve invoice with status APPROVED" ≠ "Invoice inventory already updated" := by
  decide

/-- The original C6 text says a short confirmation fails with
InsufficientStock; the code raises a ValidationError-class error instead. -/
theorem claim_C6_counterexample :
    confirm_assembly_order c6order c6sdb =
      .error (.validationErr "Insufficient stock for component") ∧
    error_is_insufficient (confirm_assembly_order c6order c6sdb) = false := by
  decide

/-- The original C8 text says adjust_stock is rejected exactly when the new
quantity would be negative; here the new quantity 5 is nonnegative yet the
adjustment is rejected, because 5 is below the reserved quantity 8. -/
theorem claim_C8_counterexample :
    adjust_stock c8cdb 1 1 (-5) = .error (.validationErr "stock full_clean failed") ∧
    (0 : Qty) ≤ 10 + (-5) := by
  decide

/-- Concrete instantiation of claim C1 on every operation. -/
theorem claim_C1_witness :
    c1adjdb.stocks_ok ∧
    c4res.stocks_ok ∧
    stock_ok ⟨1, 1, 100, 30⟩ ∧
    stock_ok ⟨1, 1, 100, 6⟩ ∧
    c3db1.stocks_ok ∧
    c3pdb2.stocks_ok ∧
    c6db1.stocks_ok ∧
    ((commit (c7order, c7db) (complete_assembly_order c7order 2 [⟨1, 2⟩] c7db)).1).2.stocks_ok ∧
    c6db2.stocks_ok :=
  ⟨claim_C1_stock_invariant.1 c1db 1 1 (-30) c1adjdb (by decide) (by decide),
   claim_C1_stock_invariant.2.1 c4db 1 2 1 20 c4res (by decide) (by decide),
   claim_C1_stock_invariant.2.2.1 ⟨1, 1, 100, 10⟩ 20 ⟨1, 1, 100, 30⟩ (by decide) (by decide),
   claim_C1_stock_invariant.2.2.2.1 ⟨1, 1, 100, 10⟩ 4 ⟨1, 1, 100, 6⟩ (by decide) (by decide),
   claim_C1_stock_invariant.2.2.2.2.1 c3inv c3db (c3inv1, c3db1) (by decide) (by decide),
   claim_C1_stock_invariant.2.2.2.2.2.1 c3pinv c3pdb (c3pinv2, c3pdb2) (by decide) (by decide),
   claim_C1_stock_invariant.2.2.2.2.2.2.1 c6order c6db (c6o1, c6db1) (by decide) (by decide),
   claim_C1_stock_invariant.2.2.2.2.2.2.2.1 c7order 2 [⟨1, 2⟩] c7db (by decide),
   claim_C1_stock_invariant.2.2.2.2.2.2.2.2 c6o1 c6db1 (c6o2, c6db2) (by decide) (by decide)⟩

/-- Concrete instantiation of claim C2: a DRAFT SALES invoice whose single
line asks for 5 units while only 3 are available, and a flagged PENDING
invoice rejected by the idempotency guard. -/
theorem claim_C2_witness :
    (∃ m, commit (c2winv, c2wdb) (approve_invoice c2winv c2wdb) =
       ((c2winv, c2wdb), some (.insufficientStockErr m))) ∧
    commit (c2cinv, c2wdb) (approve_invoice c2cinv c2wdb) =
      ((c2cinv, c2wdb), some (.businessLogicErr "Invoice inventory already updated")) :=
  ⟨claim_C2_approve_insufficient_atomic.1 c2winv c2wdb rfl (Or.inl rfl) rfl
     ⟨⟨1, 5⟩, by decide, by decide⟩,
   claim_C2_approve_insufficient_atomic.2 c2cinv c2wdb (Or.inr rfl) rfl⟩

/-- Concrete instantiation of claim C3: a PAID invoice, a cancelled approved
invoice, and a full approve-then-cancel round trip. -/
theorem claim_C3_witness :
    commit (c3paid, c3db) (cancel_invoice c3paid c3db) =
      ((c3paid, c3db), some (.businessLogicErr "Cannot cancel a paid invoice")) ∧
    (c3pinv2.status = .CANCELLED ∧
     c3pinv2.inventory_updated = true ∧
     (∀ w p, c3pdb2.quantity_at w p = c3pdb.quantity_at w p -
        (if w = c3pinv.warehouse_id then
           c3pinv.invoice_type.stock_sign * items_delta c3pinv.items p else 0)) ∧
     (∃ ms, c3pdb2.movements = c3pdb.movements ++ ms ∧ ms.length = c3pinv.items.length ∧
        ∀ m ∈ ms, m.movement_type = MovementType.ADJUSTMENT ∧
          m.reference_type = "invoice_reversal") ∧
     c3pdb2.balance_at c3pinv.contact_id = (95 : Qty) +
       (match c3pinv.invoice_type with
        | InvoiceType.SALES => -c3pinv.total_amount
        | InvoiceType.PURCHASE => c3pinv.total_amount)) ∧
    ((∀ w p, c3db2.quantity_at w p = c3db.quantity_at w p) ∧
     c3db2.contacts = c3db.contacts ∧
     c3inv2.inventory_updated = true) :=
  ⟨claim_C3_cancel_invoice.1 c3paid c3db rfl,
   claim_C3_cancel_invoice.2.1 c3pinv c3pdb c3pinv2 c3pdb2 ⟨3, 95⟩ rfl rfl (by decide),
   claim_C3_cancel_invoice.2.2 c3inv c3db c3inv1 c3db1 c3inv2 c3db2 (by decide) (by decide)⟩

/-- Concrete instantiation of claim C4: same-warehouse rejection, an
insufficient transfer, and a successful 20-unit transfer. -/
theorem claim_C4_witness :
    (∃ m, commit c4db (transfer_stock c4db 1 1 1 20) = (c4db, some (.validationErr m))) ∧
    (∃ m, commit c4db (transfer_stock c4db 1 2 1 60) = (c4db, some (.insufficientStockErr m))) ∧
    (c4res.quantity_at 1 1 = c4db.quantity_at 1 1 - 20 ∧
     c4res.quantity_at 2 1 = c4db.quantity_at 2 1 + 20 ∧
     c4res.movements = c4db.movements ++
       [{ warehouse_id := 1, product_id := 1, movement_type := MovementType.TRANSFER,
          quantity := -20, quantity_before := c4db.quantity_at 1 1,
          quantity_after := c4db.quantity_at 1 1 - 20,
          from_warehouse_id := some 1, to_warehouse_id := some 2 },
        { warehouse_id := 2, product_id := 1, movement_type := MovementType.TRANSFER,
          quantity := 20, quantity_before := c4db.quantity_at 2 1,
          quantity_after := c4db.quantity_at 2 1 + 20,
          from_warehouse_id := some 1, to_warehouse_id := some 2 }]) :=
  ⟨claim_C4_transfer_stock.1 c4db 1 1 1 20 (Or.inr rfl),
   claim_C4_transfer_stock.2.1 c4db 1 2 1 60 (by decide) (by decide) (by decide),
   claim_C4_transfer_stock.2.2 c4db 1 2 1 20 c4res (by decide)⟩

/-- Concrete instantiation of claim C5: a successful approval and the
rejected re-approval of its result. -/
theorem claim_C5_witness :
    ((c5inv.status = .DRAFT ∨ c5inv.status = .PENDING) ∧ c5inv.inventory_updated = false) ∧
    commit (c5inv1, c5db1) (approve_invoice c5inv1 c5db1) =
      ((c5inv1, c5db1), some (.businessLogicErr "Cannot approve invoice with status APPROVED")) :=
  ⟨claim_C5_approve_guards.1 c5inv c5db (c5inv1, c5db1) (by decide),
   claim_C5_approve_guards.2 c5inv c5db c5inv1 c5db1 (by decide)⟩

/-- Concrete instantiation of claim C6: a draft assembly order confirmed
against sufficient stock, a short confirmation, and the cancel round
trip. -/
theorem claim_C6_witness :
    c6order.status = .draft ∧
    (∃ m, commit (c6order, c6sdb) (confirm_assembly_order c6order c6sdb) =
       ((c6order, c6sdb), some (.validationErr m))) ∧
    (c6o1.status = .confirmed ∧
     (∀ i ∈ c6o1.items, i.is_deleted = false → i.reserved = true) ∧
     (∀ i ∈ c6order.items.filter (fun i => !i.is_deleted),
        c6db1.available_at c6order.warehouse_id i.product_id =
          c6db.available_at c6order.warehouse_id i.product_id - i.planned_quantity) ∧
     (∀ w p, c6db1.quantity_at w p = c6db.quantity_at w p) ∧
     (∃ o2 db2, cancel_production_order c6o1 c6db1 = .ok (o2, db2) ∧
        (∀ w p, db2.reserved_at w p = c6db.reserved_at w p) ∧
        (∀ w p, db2.quantity_at w p = c6db.quantity_at w p))) :=
  ⟨claim_C6_confirm_assembly.1 c6order c6db (c6o1, c6db1) (by decide),
   claim_C6_confirm_assembly.2.1 c6order c6sdb (by decide) rfl rfl (by decide)
     ⟨⟨1, 4, 3, 0, false, false⟩, by decide, by decide⟩,
   claim_C6_confirm_assembly.2.2 c6order c6db c6o1 c6db1 (by decide) (by decide)
     (by decide) (by decide) (by decide)⟩

/-- Concrete instantiation of claim C8: the spec scenario quantity 100,
adjust by -30 to 70, a too-large negative adjustment, and the
below-reserved rejection. -/
theorem claim_C8_witness :
    (∃ db2, adjust_stock c8wdb 1 1 (-30) = .ok db2 ∧ db2.quantity_at 1 1 = 70 ∧
       (∀ w2 p2, db2.reserved_at w2 p2 = c8wdb.reserved_at w2 p2) ∧
       db2.movements = c8wdb.movements ++
         [{ warehouse_id := 1, product_id := 1,
            movement_type := MovementType.ADJUSTMENT, quantity := -30,
            quantity_before := 100, quantity_after := 70 }]) ∧
    (∃ m, commit c8wdb (adjust_stock c8wdb 1 1 (-150)) = (c8wdb, some (.validationErr m))) ∧
    (∃ m, commit c8cdb (adjust_stock c8cdb 1 1 (-5)) = (c8cdb, some (.validationErr m))) := by
  refine ⟨?_, ?_, ?_⟩
  · obtain ⟨db2, h1, h2, h3, h4⟩ :=
      (claim_C8_adjust_stock c8wdb 1 1 (-30) ⟨1, 1, 100, 0⟩ rfl (by decide)).2.2 (by decide)
    refine ⟨db2, h1, ?_, h3, ?_⟩
    · rw [h2]
      decide
    · rw [h4]
      decide
  · exact (claim_C8_adjust_stock c8wdb 1 1 (-150) ⟨1, 1, 100, 0⟩ rfl (by decide)).1 (by decide)
  · exact (claim_C8_adjust_stock c8cdb 1 1 (-5) ⟨1, 1, 10, 8⟩ rfl (by decide)).2.1 (by decide)

/-- Concrete instantiation of claim C10: cancelling a never-approved DRAFT
SALES invoice still subtracts total_amount from the contact balance. -/
theorem claim_C10_witness :
    ∃ inv2 db2, cancel_invoice c10inv c10db = .ok (inv2, db2) ∧
      inv2.status = .CANCELLED ∧
      inv2.inventory_updated = false ∧
      db2.stocks = c10db.stocks ∧
      db2.movements = c10db.movements ∧
      db2.balance_at c10inv.contact_id = (40 : Qty) +
        (match c10inv.invoice_type with
         | InvoiceType.SALES => -c10inv.total_amount
         | InvoiceType.PURCHASE => c10inv.total_amount) :=
  claim_C10_cancel_unapproved_mutates_balance c10inv c10db ⟨3, 40⟩
    (by decide) rfl rfl

end AccountSystem
